import Mathlib

/-!
# Keyword research tool: browser controller (`static/js/modern-app.js`)

A shallow embedding of the controller script.  The page is a record of the
element properties the script reads and writes; the event loop is explicit:
pending `setTimeout` callbacks and pending `requestAnimationFrame` callbacks
are fields of the world state, and every call of one of the script's functions,
and every `fetch`, is appended to a call trace.

JavaScript numbers are modelled as exact rationals, with `none` for `NaN`
where a conversion can fail.  Strings are sequences of Unicode characters.
-/

namespace KeywordTool

/-! ## JavaScript values -/

/-- White space and line terminators, the characters `String.prototype.trim`
strips (ECMAScript `WhiteSpace` and `LineTerminator`). -/
def isJsWhiteSpace (c : Char) : Bool :=
  let n := c.toNat
  n == 0x09 || n == 0x0A || n == 0x0B || n == 0x0C || n == 0x0D || n == 0x20 ||
  n == 0xA0 || n == 0x1680 || (0x2000 ≤ n && n ≤ 0x200A) || n == 0x2028 ||
  n == 0x2029 || n == 0x202F || n == 0x205F || n == 0x3000 || n == 0xFEFF

/-- The builtin `String.prototype.trim`: white space removed at both ends. -/
def jsTrim (s : String) : String :=
  ⟨((s.data.dropWhile isJsWhiteSpace).reverse.dropWhile isJsWhiteSpace).reverse⟩

/-- A value produced by `JSON.parse`. -/
inductive Json where
  | null : Json
  | bool (b : Bool) : Json
  | num (q : ℚ) : Json
  | str (s : String) : Json
  | arr (xs : List Json) : Json
  | obj (kvs : List (String × Json)) : Json

/-- A JavaScript value the script handles: a JSON value, or `undefined`
(`none`). -/
abbrev JsVal := Option Json

/-- Library conversions whose results the script only passes on to the page:
number formatting and string-to-number parsing. -/
structure Builtins where
  /-- The conversion `Number::toString`. -/
  numberToString : ℚ → String
  /-- The conversion `StringToNumber`; `none` is `NaN`. -/
  stringToNumber : String → Option ℚ
  /-- The method `Number.prototype.toFixed(2)` of a number that is not `NaN`. -/
  toFixed2 : ℚ → String
  /-- The method `Number.prototype.toLocaleString()` of an integer. -/
  toLocaleString : ℤ → String

mutual
/-- The conversion `ToString` of a JSON value.  An object is converted as by
`Object.prototype.toString`; an object with an entry of its own named
`toString`, for which the conversion throws, is not told apart. -/
def Json.toStr (B : Builtins) : Json → String
  | .null => "null"
  | .bool true => "true"
  | .bool false => "false"
  | .num q => B.numberToString q
  | .str s => s
  | .arr xs => Json.joinStr B xs
  | .obj _ => "[object Object]"
/-- The method `Array.prototype.join(",")`, which `ToString` of an array calls. -/
def Json.joinStr (B : Builtins) : List Json → String
  | [] => ""
  | [x] => Json.elemStr B x
  | x :: y :: rest => Json.elemStr B x ++ "," ++ Json.joinStr B (y :: rest)
/-- One element inside `join`: `null` gives the empty string. -/
def Json.elemStr (B : Builtins) : Json → String
  | .null => ""
  | v => Json.toStr B v
end

/-- The conversion `ToString` of a JavaScript value. -/
def jsToString (B : Builtins) : JsVal → String
  | none => "undefined"
  | some v => v.toStr B

/-- The conversion `ToBoolean`: `undefined`, `null`, `false`, `0` and the empty
string are falsy. -/
def truthy : JsVal → Bool
  | none => false
  | some .null => false
  | some (.bool b) => b
  | some (.num q) => q != 0
  | some (.str s) => s != ""
  | some (.arr _) => true
  | some (.obj _) => true

/-- The conversion `ToNumber`; `none` is `NaN`. -/
def toNumber (B : Builtins) : JsVal → Option ℚ
  | none => none
  | some .null => some 0
  | some (.bool b) => some (if b then 1 else 0)
  | some (.num q) => some q
  | some (.str s) => B.stringToNumber s
  | some (.arr xs) => B.stringToNumber ((Json.arr xs).toStr B)
  | some (.obj _) => none

/-- A property read `data.key`.  Reading a property of `null` or `undefined`
throws (`Except.error`); an object yields the value of its last entry for the
key; every other JSON value has none of the keys the script reads. -/
def getProp (v : JsVal) (key : String) : Except Unit JsVal :=
  match v with
  | none => .error ()
  | some .null => .error ()
  | some (.obj kvs) => .ok (kvs.reverse.lookup key)
  | some _ => .ok none

/-- Builtin `Math.round`: the nearest integer, halves rounded up; `NaN` stays
`NaN`. -/
def mathRound (x : Option ℚ) : Option ℤ :=
  x.map fun q => ⌊q + 1 / 2⌋

/-- The call `x.toFixed(2)` on a number. -/
def numToFixed2 (B : Builtins) : Option ℚ → String
  | none => "NaN"
  | some q => B.toFixed2 q

/-- The call `n.toLocaleString()` on the result of `Math.round`. -/
def numToLocaleString (B : Builtins) : Option ℤ → String
  | none => "NaN"
  | some n => B.toLocaleString n

/-- What a `textContent` setter stores: `null` and `undefined` give the empty
string, any other value its `ToString`. -/
def textContentOf (B : Builtins) : JsVal → String
  | none => ""
  | some .null => ""
  | some v => v.toStr B

/-- The string that the `value` setter of the input receives for a JSON value:
`null` gives the empty string, any other value its `ToString`. -/
def inputValueOf (B : Builtins) : Json → String
  | .null => ""
  | v => v.toStr B

/-! ## The page and the event loop -/

/-- The three counters `animateNumber` is called on. -/
inductive Counter where
  | searchVolume
  | difficulty
  | earnings
  deriving DecidableEq

/-- The arguments of one `fetch` call; `body` is the value handed to
`JSON.stringify`. -/
structure Request where
  url : String
  method : String
  headers : List (String × String)
  body : Json

/-- One `div` appended to the related-keywords container, with the keyword
its click listener has captured. -/
structure Tag where
  className : String
  index : Nat
  innerHTML : String
  keyword : Json

/-- The completion callbacks passed to `animateNumber`; the only one in the
script is the arrow function in `displayDifficulty`. -/
inductive Callback where
  | difficultyOutOf100 (difficultyValue : JsVal)

/-- A closure of `updateNumber`: the arguments of the enclosing
`animateNumber` call and its `startTime`. -/
structure Anim where
  element : Counter
  start : ℚ
  endValue : JsVal
  duration : ℚ
  addCommas : Bool
  callback : Option Callback
  startTime : ℚ

/-- The callbacks the script passes to `setTimeout`. -/
inductive TimerAction where
  | hideError
  | applyDifficulty (percentage : JsVal) (level levelText : String)
  | scrollIntoView

/-- A pending `setTimeout` callback and the time it falls due. -/
structure Timer where
  due : ℚ
  action : TimerAction

/-- One entry of the call trace. -/
inductive Call where
  | handleAnalyze
  | setLoadingState (isLoading : Bool)
  | showError (message : JsVal)
  | hideError
  | hideResults
  | fetch (req : Request)
  | consoleError
  | displayResults
  | displayDifficulty
  | displayRelatedKeywords
  | animateNumber (element : Counter)
  | callback (element : Counter)
  | uncaughtTypeError
  | smoothScrollToResults
  | scrollIntoView
  | scrollToTop

/-- The element properties the script reads and writes. -/
structure Dom where
  keywordInputValue : String
  keywordInputDisabled : Bool
  keywordInputFocused : Bool
  analyzeBtnDisabled : Bool
  analyzeBtnLoading : Bool
  resultsHidden : Bool
  errorHidden : Bool
  errorText : String
  analyzedKeyword : String
  searchVolume : String
  difficulty : String
  earnings : String
  difficultyFillWidth : String
  difficultyFillClasses : List String
  difficultyLabelClasses : List String
  difficultyLabelText : String
  relatedKeywords : List Tag

/-- The page together with the event loop: the clock (`performance.now()`, in
milliseconds), pending timers, pending animation-frame callbacks, and the
trace of calls made so far. -/
structure World where
  now : ℚ
  dom : Dom
  timers : List Timer
  frames : List Anim
  trace : List Call

/-- The page as loaded: nothing shown, nothing pending. -/
def Dom.initial : Dom :=
  { keywordInputValue := "", keywordInputDisabled := false, keywordInputFocused := true,
    analyzeBtnDisabled := false, analyzeBtnLoading := false,
    resultsHidden := true, errorHidden := true, errorText := "",
    analyzedKeyword := "", searchVolume := "", difficulty := "", earnings := "",
    difficultyFillWidth := "", difficultyFillClasses := [], difficultyLabelClasses := [],
    difficultyLabelText := "", relatedKeywords := [] }

/-- The world right after the page has loaded. -/
def World.initial : World :=
  { now := 0, dom := Dom.initial, timers := [], frames := [], trace := [] }

/-- Append one entry to the call trace. -/
def World.log (w : World) (c : Call) : World :=
  { w with trace := w.trace ++ [c] }

/-- The builtin `setTimeout(action, delay)`. -/
def World.setTimeout (w : World) (action : TimerAction) (delay : ℚ) : World :=
  { w with timers := w.timers ++ [{ due := w.now + delay, action := action }] }

/-- The text content of a counter element. -/
def Dom.counterText (d : Dom) : Counter → String
  | .searchVolume => d.searchVolume
  | .difficulty => d.difficulty
  | .earnings => d.earnings

/-- Assign the text content of a counter element. -/
def Dom.setCounterText (d : Dom) (c : Counter) (s : String) : Dom :=
  match c with
  | .searchVolume => { d with searchVolume := s }
  | .difficulty => { d with difficulty := s }
  | .earnings => { d with earnings := s }

/-- Modelled from the spec: the page markup is not among the sources; the spec
(section 6) names the input a text input, and the `value` setter of a text
input removes line feeds and carriage returns from what is assigned. -/
def sanitizeValue (s : String) : String :=
  ⟨s.data.filter fun c => !(c.toNat == 0x0A || c.toNat == 0x0D)⟩

/-- The assignment `keywordInput.value = s`. -/
def World.setInputValue (w : World) (s : String) : World :=
  { w with dom := { w.dom with keywordInputValue := sanitizeValue s } }

/-- Assign the text content of a counter element of the page. -/
def World.setCounterText (w : World) (c : Counter) (s : String) : World :=
  { w with dom := w.dom.setCounterText c s }

/-- The fetch calls in a trace, in order. -/
def requestsOf : List Call → List Request
  | [] => []
  | .fetch r :: cs => r :: requestsOf cs
  | _ :: cs => requestsOf cs

/-- The arguments of the `setLoadingState` calls in a trace, in order. -/
def loadingCalls : List Call → List Bool
  | [] => []
  | .setLoadingState b :: cs => b :: loadingCalls cs
  | _ :: cs => loadingCalls cs

/-! ## UI state functions -/

/-- Source `setLoadingState`. -/
def setLoadingState (isLoading : Bool) (w : World) : World :=
  let w := w.log (.setLoadingState isLoading)
  if isLoading then
    { w with dom := { w.dom with analyzeBtnDisabled := true, analyzeBtnLoading := true,
                                 keywordInputDisabled := true } }
  else
    { w with dom := { w.dom with analyzeBtnDisabled := false, analyzeBtnLoading := false,
                                 keywordInputDisabled := false } }

/-- Source `hideError`. -/
def hideError (w : World) : World :=
  let w := w.log .hideError
  { w with dom := { w.dom with errorHidden := true } }

/-- Source `showError`: set the text, show the banner, and schedule `hideError`
in 5000 ms. -/
def showError (B : Builtins) (message : JsVal) (w : World) : World :=
  let w := w.log (.showError message)
  let w := { w with dom := { w.dom with errorText := textContentOf B message,
                                        errorHidden := false } }
  w.setTimeout .hideError 5000

/-- Source `hideResults`. -/
def hideResults (w : World) : World :=
  let w := w.log .hideResults
  { w with dom := { w.dom with resultsHidden := true } }

/-! ## Animation -/

/-- The closure of `updateNumber` that a call of `animateNumber` creates in
the world `w`: `startTime` is `performance.now()`. -/
def animOf (element : Counter) (start : ℚ) (endValue : JsVal) (duration : ℚ)
    (addCommas : Bool) (callback : Option Callback) (w : World) : Anim :=
  { element := element, start := start, endValue := endValue, duration := duration,
    addCommas := addCommas, callback := callback, startTime := w.now }

/-- Source `animateNumber`: record `startTime` and request the first frame. -/
def animateNumber (element : Counter) (start : ℚ) (endValue : JsVal) (duration : ℚ)
    (addCommas : Bool) (callback : Option Callback) (w : World) : World :=
  let w := w.log (.animateNumber element)
  let a := animOf element start endValue duration addCommas callback w
  { w with frames := w.frames ++ [a] }

/-- The local `difference = end - start` of `animateNumber`. -/
def Anim.difference (B : Builtins) (a : Anim) : Option ℚ :=
  (toNumber B a.endValue).map fun e => e - a.start

/-- The local `elapsed` of `updateNumber`. -/
def Anim.elapsed (a : Anim) (currentTime : ℚ) : ℚ :=
  currentTime - a.startTime

/-- The local `progress = Math.min(elapsed / duration, 1)` of `updateNumber`. -/
def Anim.progress (a : Anim) (currentTime : ℚ) : ℚ :=
  min (a.elapsed currentTime / a.duration) 1

/-- The local `easeProgress = 1 - Math.pow(1 - progress, 3)` of `updateNumber`. -/
def Anim.easeProgress (a : Anim) (currentTime : ℚ) : ℚ :=
  1 - (1 - a.progress currentTime) ^ 3

/-- The local `current = start + difference * easeProgress` of `updateNumber`. -/
def Anim.current (B : Builtins) (a : Anim) (currentTime : ℚ) : Option ℚ :=
  (a.difference B).map fun d => a.start + d * a.easeProgress currentTime

/-- Run a completion callback, when one was given. -/
def runCallback (B : Builtins) (element : Counter) (callback : Option Callback)
    (w : World) : World :=
  match callback with
  | none => w
  | some (.difficultyOutOf100 difficultyValue) =>
    let w := w.log (.callback element)
    { w with dom := { w.dom with difficulty := jsToString B difficultyValue ++ "/100" } }

/-- The first half of `updateNumber`: format `current` and show it. -/
def showCurrent (B : Builtins) (a : Anim) (currentTime : ℚ) (w : World) : World :=
  let current := a.current B currentTime
  let text := if a.addCommas then numToLocaleString B (mathRound current)
    else numToFixed2 B current
  w.setCounterText a.element text

/-- The `else` branch at the end of `updateNumber`: show the final value and
run the callback.  `end.toFixed(2)` throws when `end` is not a number: the
callback is then not reached. -/
def showFinal (B : Builtins) (a : Anim) (w : World) : World :=
  if a.addCommas then
    let final := numToLocaleString B (mathRound (toNumber B a.endValue))
    let w := w.setCounterText a.element final
    runCallback B a.element a.callback w
  else
    match a.endValue with
    | some (.num q) =>
      let w := w.setCounterText a.element (B.toFixed2 q)
      runCallback B a.element a.callback w
    | _ => w.log .uncaughtTypeError

/-- Source `updateNumber`, the frame callback inside `animateNumber`. -/
def updateNumber (B : Builtins) (a : Anim) (currentTime : ℚ) (w : World) : World :=
  let progress := a.progress currentTime
  let w := showCurrent B a currentTime w
  if progress < 1 then
    { w with frames := w.frames ++ [a] }
  else
    showFinal B a w

/-- One display frame: every pending frame callback runs with the frame
timestamp; callbacks requested meanwhile wait for the next frame. -/
def animationFrame (B : Builtins) (timestamp : ℚ) (w : World) : World :=
  w.frames.foldl (fun acc a => updateNumber B a timestamp acc) { w with frames := [] }

/-- A run of display frames with the given timestamps. -/
def animationFrames (B : Builtins) (timestamps : List ℚ) (w : World) : World :=
  timestamps.foldl (fun acc t => animationFrame B t acc) w

/-! ## Display functions -/

/-- The class list of the difficulty bar after `classList.remove('easy',
'medium', 'hard')`. -/
def removeLevels (classes : List String) : List String :=
  classes.filter fun c => !(c == "easy" || c == "medium" || c == "hard")

/-- The method `classList.add`. -/
def addClass (classes : List String) (c : String) : List String :=
  if c ∈ classes then classes else classes ++ [c]

/-- The comparison `difficultyValue <= bound` against a number literal: both
sides go through `ToNumber`, and `NaN` compares false. -/
def jsLe (B : Builtins) (v : JsVal) (bound : ℚ) : Bool :=
  match toNumber B v with
  | none => false
  | some q => decide (q ≤ bound)

/-- The `level` and `levelText` that `displayDifficulty` determines. -/
def difficultyLevel (B : Builtins) (difficultyValue : JsVal) : String × String :=
  if jsLe B difficultyValue 33 then ("easy", "Easy to Rank")
  else if jsLe B difficultyValue 66 then ("medium", "Moderate Competition")
  else ("hard", "High Competition")

/-- Source `displayDifficulty`. -/
def displayDifficulty (B : Builtins) (difficultyValue : JsVal) (w : World) : World :=
  let w := w.log .displayDifficulty
  let w := animateNumber .difficulty 0 difficultyValue 1500 false
    (some (.difficultyOutOf100 difficultyValue)) w
  let percentage := difficultyValue
  let w := { w with dom := { w.dom with
    difficultyFillClasses := removeLevels w.dom.difficultyFillClasses,
    difficultyLabelClasses := removeLevels w.dom.difficultyLabelClasses } }
  let (level, levelText) := difficultyLevel B difficultyValue
  w.setTimeout (.applyDifficulty percentage level levelText) 100

/-- The template literal assigned to `tag.innerHTML`, up to the keyword. -/
def tagMarkupHead : String :=
  "\n            <svg viewBox=\"0 0 24 24\" fill=\"none\" xmlns=\"http://www.w3.org/2000/svg\">\n                <path d=\"M7 7H17M7 12H17M7 17H13\" stroke=\"currentColor\" stroke-width=\"2\" stroke-linecap=\"round\" stroke-linejoin=\"round\"/>\n            </svg>\n            "

/-- The template literal assigned to `tag.innerHTML`, after the keyword. -/
def tagMarkupTail : String :=
  "\n        "

/-- The tag that one round of the `forEach` in `displayRelatedKeywords`
builds. -/
def makeTag (B : Builtins) (keyword : Json) (index : Nat) : Tag :=
  { className := "keyword-tag", index := index,
    innerHTML := tagMarkupHead ++ keyword.toStr B ++ tagMarkupTail,
    keyword := keyword }

/-- The `forEach` loop of `displayRelatedKeywords` from index `index` on: one
`appendChild` per keyword. -/
def appendTags (B : Builtins) : List Json → Nat → World → World
  | [], _, w => w
  | keyword :: rest, index, w =>
    appendTags B rest (index + 1)
      { w with dom := { w.dom with
          relatedKeywords := w.dom.relatedKeywords ++ [makeTag B keyword index] } }

/-- Source `displayRelatedKeywords`.  `keywords.forEach` throws when `keywords`
is not an array (`Except.error`, with the world at the throw). -/
def displayRelatedKeywords (B : Builtins) (keywords : JsVal) (w : World) :
    Except World World :=
  let w := w.log .displayRelatedKeywords
  let w := { w with dom := { w.dom with relatedKeywords := [] } }
  match keywords with
  | some (.arr xs) => .ok (appendTags B xs 0 w)
  | _ => .error w

/-- A property read inside a `try` block: a throw carries the world at that
point. -/
def readProp (data : JsVal) (key : String) (w : World) : Except World JsVal :=
  match getProp data key with
  | .ok v => .ok v
  | .error _ => .error w

/-- Source `displayResults`. -/
def displayResults (B : Builtins) (data : JsVal) (w : World) : Except World World := do
  let w := w.log .displayResults
  let keyword ← readProp data "keyword" w
  let w := { w with dom := { w.dom with analyzedKeyword := textContentOf B keyword } }
  let searchVolume ← readProp data "search_volume" w
  let w := animateNumber .searchVolume 0 searchVolume 1500 true none w
  let difficulty ← readProp data "difficulty" w
  let w := displayDifficulty B difficulty w
  let earnings ← readProp data "estimated_earnings" w
  let w := animateNumber .earnings 0 earnings 1500 false none w
  let related ← readProp data "related_keywords" w
  let w ← displayRelatedKeywords B related w
  pure { w with dom := { w.dom with resultsHidden := false } }

/-- Source `smoothScrollToResults`. -/
def smoothScrollToResults (w : World) : World :=
  let w := w.log .smoothScrollToResults
  w.setTimeout .scrollIntoView 300

/-! ## The analysis request -/

/-- The request `handleAnalyze` passes to `fetch`. -/
def analyzeRequest (keyword : String) : Request :=
  { url := "/analyze", method := "POST",
    headers := [("Content-Type", "application/json")],
    body := .obj [("keyword", .str keyword)] }

/-- Where a call of `handleAnalyze` stands when control goes back to the event
loop: it has returned, or it is suspended at `await fetch(...)`. -/
inductive Run where
  | returned (w : World)
  | awaiting (w : World)

/-- The world a run leaves behind. -/
def Run.world : Run → World
  | .returned w => w
  | .awaiting w => w

/-- Source `handleAnalyze`, from the call up to `await fetch(...)`. -/
def handleAnalyzeStart (B : Builtins) (w : World) : Run :=
  let w := w.log .handleAnalyze
  let keyword := jsTrim w.dom.keywordInputValue
  if keyword = "" then
    .returned (showError B (some (.str "Please enter a keyword to analyze")) w)
  else
    let w := setLoadingState true w
    let w := hideError w
    let w := hideResults w
    .awaiting (w.log (.fetch (analyzeRequest keyword)))

/-- How the request settles: `fetch` rejects, or it resolves to a response with
a status code, whose `json()` yields a value or rejects (`none`). -/
inductive FetchOutcome where
  | rejected
  | response (status : Nat) (json : Option Json)

/-- The builtin property `response.ok`: the status is in the range 200-299. -/
def responseOk (status : Nat) : Bool :=
  decide (200 ≤ status) && decide (status ≤ 299)

/-- The `try` block of `handleAnalyze` after the request has settled; a throw
is `Except.error` with the world at the throw. -/
def handleAnalyzeTry (B : Builtins) (outcome : FetchOutcome) (w : World) :
    Except World World :=
  match outcome with
  | .rejected => .error w
  | .response _ none => .error w
  | .response status (some data) =>
    if responseOk status then do
      let w ← displayResults B (some data) w
      pure (smoothScrollToResults w)
    else do
      let error ← readProp (some data) "error" w
      pure (showError B
        (if truthy error then error
         else some (.str "An error occurred while analyzing the keyword")) w)

/-- The `catch` block of `handleAnalyze`. -/
def handleAnalyzeCatch (B : Builtins) (w : World) : World :=
  let w := w.log .consoleError
  showError B (some (.str "Failed to connect to the server. Please try again.")) w

/-- The `try` and `catch` blocks of `handleAnalyze` together: the world when
control reaches the `finally` block. -/
def handleAnalyzeTryCatch (B : Builtins) (outcome : FetchOutcome) (w : World) : World :=
  match handleAnalyzeTry B outcome w with
  | .ok w => w
  | .error w => handleAnalyzeCatch B w

/-- Source `handleAnalyze`, from the point the request settles to the end:
`try`, `catch`, `finally`. -/
def handleAnalyzeSettle (B : Builtins) (outcome : FetchOutcome) (w : World) : World :=
  setLoadingState false (handleAnalyzeTryCatch B outcome w)

/-- One whole run of `handleAnalyze` with nothing else happening meanwhile. -/
def handleAnalyze (B : Builtins) (outcome : FetchOutcome) (w : World) : World :=
  match handleAnalyzeStart B w with
  | .returned w => w
  | .awaiting w => handleAnalyzeSettle B outcome w

/-! ## Timers and listeners -/

/-- Run the callback of a timer. -/
def runTimer (B : Builtins) (t : Timer) (w : World) : World :=
  match t.action with
  | .hideError => hideError w
  | .applyDifficulty percentage level levelText =>
    { w with dom := { w.dom with
        difficultyFillWidth := jsToString B percentage ++ "%",
        difficultyFillClasses := addClass w.dom.difficultyFillClasses level,
        difficultyLabelClasses := addClass w.dom.difficultyLabelClasses level,
        difficultyLabelText := levelText } }
  | .scrollIntoView => w.log .scrollIntoView

/-- The clock moves on to `t`: the timers due by then run, earliest first (in
the order set for equal due times), and leave the queue. -/
def advanceTo (B : Builtins) (t : ℚ) (w : World) : World :=
  let due := (w.timers.filter fun x => decide (x.due ≤ t)).insertionSort
    fun x y => x.due ≤ y.due
  let rest := w.timers.filter fun x => !decide (x.due ≤ t)
  due.foldl (fun acc x => runTimer B x acc) { w with now := max w.now t, timers := rest }

/-- The `input` listener of the input, run after the user has changed the
value to `value`: white space at the start is removed. -/
def onInput (value : String) (w : World) : World :=
  let w := { w with dom := { w.dom with keywordInputValue := value } }
  let trimmedStart : String := ⟨value.data.dropWhile isJsWhiteSpace⟩
  if value ≠ trimmedStart then w.setInputValue trimmedStart else w

/-- The click listener of the close control of the banner. -/
def onCloseErrorClick (w : World) : World :=
  { w with dom := { w.dom with errorHidden := true } }

/-- The click listener of the submit control. -/
def onAnalyzeClick (B : Builtins) (w : World) : Run :=
  handleAnalyzeStart B w

/-- The `keypress` listener of the input. -/
def onKeypress (B : Builtins) (key : String) (w : World) : Run :=
  if key = "Enter" then handleAnalyzeStart B w else .returned w

/-- The click listener of an example button carrying `data-keyword`. -/
def onExampleClick (B : Builtins) (keyword : String) (w : World) : Run :=
  handleAnalyzeStart B (w.setInputValue keyword)

/-- The click listener of a related-keyword tag: put the keyword in the input,
call `handleAnalyze`, scroll to the top. -/
def onTagClick (B : Builtins) (tag : Tag) (w : World) : Run :=
  let w := w.setInputValue (inputValueOf B tag.keyword)
  match handleAnalyzeStart B w with
  | .returned w => .returned (w.log .scrollToTop)
  | .awaiting w => .awaiting (w.log .scrollToTop)

/-- The `keydown` listener of the document. -/
def onKeydown (key : String) (ctrlKey metaKey : Bool) (w : World) : World :=
  let w := if (ctrlKey || metaKey) && key == "k" then
      { w with dom := { w.dom with keywordInputFocused := true } }
    else w
  if key == "Escape" && w.dom.keywordInputFocused then
    hideError (w.setInputValue "")
  else w

/-! ## Observations used in the statements -/

/-- Whether a timer callback is the `hideError` call that `showError` sets. -/
def TimerAction.isHideError : TimerAction → Bool
  | .hideError => true
  | _ => false

/-- The number of completion callbacks run for the counter `el` in a trace. -/
def callbacksOf (el : Counter) : List Call → Nat
  | [] => 0
  | .callback e :: cs => (if e = el then 1 else 0) + callbacksOf el cs
  | _ :: cs => callbacksOf el cs

/-- A pending animation that leaves the counter `el` alone: it writes another
counter, and it carries no callback when `el` is the difficulty counter (the
one element a callback writes). -/
def Anim.leaves (el : Counter) (b : Anim) : Prop :=
  b.element ≠ el ∧ (el = .difficulty → b.callback = none)

/-- The timer that `displayDifficulty` sets for the value `v`, falling due at
`due`. -/
def levelTimer (B : Builtins) (v : JsVal) (due : ℚ) : Timer :=
  { due := due,
    action := .applyDifficulty v (difficultyLevel B v).1 (difficultyLevel B v).2 }

/-- The animation `a` is pending as the last frame callback, and the pending
callbacks before it leave the counter `el` alone. -/
def PendingLast (el : Counter) (a : Anim) (w : World) : Prop :=
  ∃ others, w.frames = others ++ [a] ∧ ∀ b ∈ others, b.leaves el

/-- Every pending frame callback leaves the counter `el` alone. -/
def NonePending (el : Counter) (w : World) : Prop :=
  ∀ b ∈ w.frames, b.leaves el

/-- The text `animateNumber` shows at the end for the number `q`. -/
def finalText (B : Builtins) (addCommas : Bool) (q : ℚ) : String :=
  if addCommas then B.toLocaleString ⌊q + 1 / 2⌋ else B.toFixed2 q

/-! ## Steps that leave the loading state alone -/

/-- The step from `w` to `w2` makes no request, does not call
`setLoadingState`, and leaves the disabled flags and the loading marker as they
are. -/
structure Quiet (w w2 : World) : Prop where
  requests : requestsOf w2.trace = requestsOf w.trace
  loading : loadingCalls w2.trace = loadingCalls w.trace
  btnDisabled : w2.dom.analyzeBtnDisabled = w.dom.analyzeBtnDisabled
  btnLoading : w2.dom.analyzeBtnLoading = w.dom.analyzeBtnLoading
  inputDisabled : w2.dom.keywordInputDisabled = w.dom.keywordInputDisabled

/-- The step relation `Quiet` for a function that may throw: it holds for the
world returned and for the world at the throw. -/
def QuietE (w : World) : Except World World → Prop
  | .ok w2 => Quiet w w2
  | .error w2 => Quiet w w2

/-! ## Sample inputs -/

/-- Library conversions used to evaluate examples: integers are written in
decimal notation (other fractions as numerator, slash, denominator), `toFixed2`
rounds to hundredths, `toLocaleString` writes the integer without separators,
and a string converts to a number when it is a decimal integer. -/
def sampleBuiltins : Builtins :=
  { numberToString := fun q =>
      if q.den = 1 then toString q.num else toString q.num ++ "/" ++ toString q.den
    stringToNumber := fun s => s.toInt?.map fun n => (n : ℚ)
    toFixed2 := fun q =>
      let n := ⌊|q| * 100 + 1 / 2⌋.toNat
      let frac := n % 100
      (if q < 0 then "-" else "") ++ toString (n / 100) ++ "." ++
        (if frac < 10 then "0" else "") ++ toString frac
    toLocaleString := fun n => toString n }

/-- The freshly loaded page with `value` typed into the input. -/
def World.typed (value : String) : World :=
  { World.initial with dom := { Dom.initial with keywordInputValue := value } }

/-- A response with status 429 and the body `error: "rate limited"`. -/
def rateLimited : FetchOutcome :=
  .response 429 (some (.obj [("error", .str "rate limited")]))

/-- The keyword `mug` is submitted on the freshly loaded page and the request
settles at once with `rateLimited`: the banner shows at time 0. -/
def bannerShown : World :=
  handleAnalyze sampleBuiltins rateLimited (World.typed "mug")

/-- Three seconds later the user empties the input and submits again: the
validation error shows at time 3000. -/
def bannerShownAgain : World :=
  (handleAnalyzeStart sampleBuiltins
    (onInput "" (advanceTo sampleBuiltins 3000 bannerShown))).world

/-- An animation whose `startTime` is 10 ms, as `animateNumber` records it when
called at that time for the difficulty counter with the value 40. -/
def sampleAnim : Anim :=
  { element := .difficulty, start := 0, endValue := some (.num 40), duration := 1500,
    addCommas := false, callback := some (.difficultyOutOf100 (some (.num 40))),
    startTime := 10 }

end KeywordTool

namespace KeywordTool

/-! ## Difficulty buckets -/

theorem jsLe_num (B : Builtins) (q bound : ℚ) :
    jsLe B (some (.num q)) bound = decide (q ≤ bound) := rfl

theorem displayDifficulty_timers (B : Builtins) (v : JsVal) (w : World) :
    (displayDifficulty B v w).timers = w.timers ++ [levelTimer B v (w.now + 100)] := rfl

theorem mem_removeLevels (cs : List String) (c : String) (h : c ∈ removeLevels cs) :
    c ≠ "easy" ∧ c ≠ "medium" ∧ c ≠ "hard" := by
  unfold removeLevels at h
  rw [List.mem_filter] at h
  simpa [not_or, and_assoc] using h.2

theorem mem_addClass (cs : List String) (l c : String) :
    c ∈ addClass cs l ↔ c ∈ cs ∨ c = l := by
  unfold addClass
  split
  · constructor
    · exact Or.inl
    · rintro (h | h)
      · exact h
      · rw [h]; assumption
  · simp

theorem level_class (cs : List String) (l c : String)
    (hc : c = "easy" ∨ c = "medium" ∨ c = "hard") :
    c ∈ addClass (removeLevels cs) l ↔ c = l := by
  rw [mem_addClass]
  constructor
  · rintro (h | h)
    · obtain ⟨h1, h2, h3⟩ := mem_removeLevels _ _ h
      rcases hc with hc | hc | hc
      · exact absurd hc h1
      · exact absurd hc h2
      · exact absurd hc h3
    · exact h
  · exact Or.inr

/-- When the update that `displayDifficulty` schedules runs on the page as
`displayDifficulty` left it, the label text is the level text, and of the three
level classes the bar and the label carry the level and no other. -/
theorem level_applied (B : Builtins) (v : JsVal) (w : World) (due : ℚ) :
    (runTimer B (levelTimer B v due) (displayDifficulty B v w)).dom.difficultyLabelText =
      (difficultyLevel B v).2 ∧
    (∀ c, c = "easy" ∨ c = "medium" ∨ c = "hard" →
      (c ∈ (runTimer B (levelTimer B v due)
          (displayDifficulty B v w)).dom.difficultyFillClasses ↔
        c = (difficultyLevel B v).1)) ∧
    (∀ c, c = "easy" ∨ c = "medium" ∨ c = "hard" →
      (c ∈ (runTimer B (levelTimer B v due)
          (displayDifficulty B v w)).dom.difficultyLabelClasses ↔
        c = (difficultyLevel B v).1)) :=
  ⟨rfl, fun c hc => level_class w.dom.difficultyFillClasses _ c hc,
    fun c hc => level_class w.dom.difficultyLabelClasses _ c hc⟩

/-- C3: for every integer difficulty `d` in [0,100] the level and label that
`displayDifficulty` determines are `easy` / `Easy to Rank` when `d <= 33`,
`medium` / `Moderate Competition` when `34 <= d <= 66` and `hard` /
`High Competition` when `d >= 67`; 33 is easy, 34 and 66 are medium, 67 is
hard; the result is the same for every page state and every choice of library
conversions, and it is the level and label of the update that
`displayDifficulty` schedules for 100 ms later; when that update runs, the
label shows the level text and, of the three level classes, the bar carries
the level and no other. -/
theorem C3_difficulty_bucket (B : Builtins) (w : World) (d : ℤ) (h0 : 0 ≤ d)
    (h100 : d ≤ 100) :
    (d ≤ 33 → difficultyLevel B (some (.num d)) = ("easy", "Easy to Rank")) ∧
    (34 ≤ d → d ≤ 66 →
      difficultyLevel B (some (.num d)) = ("medium", "Moderate Competition")) ∧
    (67 ≤ d → difficultyLevel B (some (.num d)) = ("hard", "High Competition")) ∧
    difficultyLevel B (some (.num 33)) = ("easy", "Easy to Rank") ∧
    difficultyLevel B (some (.num 34)) = ("medium", "Moderate Competition") ∧
    difficultyLevel B (some (.num 66)) = ("medium", "Moderate Competition") ∧
    difficultyLevel B (some (.num 67)) = ("hard", "High Competition") ∧
    (∀ (B2 : Builtins), difficultyLevel B2 (some (.num d)) =
      difficultyLevel B (some (.num d))) ∧
    (displayDifficulty B (some (.num d)) w).timers =
      w.timers ++ [levelTimer B (some (.num d)) (w.now + 100)] ∧
    (runTimer B (levelTimer B (some (.num d)) (w.now + 100))
      (displayDifficulty B (some (.num d)) w)).dom.difficultyLabelText =
        (difficultyLevel B (some (.num d))).2 ∧
    (∀ c, c = "easy" ∨ c = "medium" ∨ c = "hard" →
      (c ∈ (runTimer B (levelTimer B (some (.num d)) (w.now + 100))
          (displayDifficulty B (some (.num d)) w)).dom.difficultyFillClasses ↔
        c = (difficultyLevel B (some (.num d))).1)) := by
  have key : ∀ (B1 : Builtins) (q : ℚ), difficultyLevel B1 (some (.num q)) =
      if q ≤ 33 then ("easy", "Easy to Rank")
      else if q ≤ 66 then ("medium", "Moderate Competition")
      else ("hard", "High Competition") := by
    intro B1 q
    simp only [difficultyLevel, jsLe_num, decide_eq_true_eq]
  refine ⟨?_, ?_, ?_, ?_, ?_, ?_, ?_, ?_, ?_, (level_applied B _ w _).1,
    (level_applied B _ w _).2.1⟩
  · intro h
    have h1 : (d : ℚ) ≤ 33 := by exact_mod_cast h
    rw [key, if_pos h1]
  · intro h34 h66
    have h1 : ¬ (d : ℚ) ≤ 33 := by
      have : (33 : ℤ) < d := by omega
      have h2 : (33 : ℚ) < d := by exact_mod_cast this
      exact not_le.mpr h2
    have h2 : (d : ℚ) ≤ 66 := by exact_mod_cast h66
    rw [key, if_neg h1, if_pos h2]
  · intro h67
    have h1 : ¬ (d : ℚ) ≤ 33 := by
      have : (33 : ℤ) < d := by omega
      have h2 : (33 : ℚ) < d := by exact_mod_cast this
      exact not_le.mpr h2
    have h2 : ¬ (d : ℚ) ≤ 66 := by
      have : (66 : ℤ) < d := by omega
      have h2 : (66 : ℚ) < d := by exact_mod_cast this
      exact not_le.mpr h2
    rw [key, if_neg h1, if_neg h2]
  · rw [key]; norm_num
  · rw [key]; norm_num
  · rw [key]; norm_num
  · rw [key]; norm_num
  · intro B2
    rw [key, key]
  · exact displayDifficulty_timers B _ w

/-- Witness of C3 at difficulty 50 on the freshly loaded page. -/
theorem C3_difficulty_bucket_witness :
    difficultyLevel sampleBuiltins (some (.num ((50 : ℤ) : ℚ))) =
      ("medium", "Moderate Competition") :=
  (C3_difficulty_bucket sampleBuiltins World.initial 50 (by decide) (by decide)).2.1
    (by decide) (by decide)

/-! ## The eased counter -/

theorem Anim.progress_le_one (a : Anim) (t : ℚ) : a.progress t ≤ 1 :=
  min_le_right _ _

theorem ease_bounds (p : ℚ) (h0 : 0 ≤ p) (h1 : p ≤ 1) :
    0 ≤ 1 - (1 - p) ^ 3 ∧ 1 - (1 - p) ^ 3 ≤ 1 := by
  have ha : 0 ≤ 1 - p := by linarith
  have hb : 1 - p ≤ 1 := by linarith
  have hc : 0 ≤ (1 - p) ^ 3 := pow_nonneg ha 3
  have hd : (1 - p) ^ 3 ≤ 1 := pow_le_one₀ ha hb
  constructor <;> linarith

/-- C7: for an animation from 0 to 100 with a positive duration, at every
frame whose progress lies in [0,1] the interpolated value
`start + difference * easeProgress` is a number between 0 and 100, and it is
exactly 100 when the progress is 1. -/
theorem C7_eased_value_bounds (B : Builtins) (a : Anim) (t : ℚ)
    (hstart : a.start = 0) (hend : a.endValue = some (.num 100))
    (_hD : 0 < a.duration) (hp : 0 ≤ a.progress t) :
    a.progress t ≤ 1 ∧
    ∃ c : ℚ, a.current B t = some c ∧
      c = 0 + (100 - 0) * (1 - (1 - a.progress t) ^ 3) ∧
      0 ≤ c ∧ c ≤ 100 ∧ (a.progress t = 1 → c = 100) := by
  refine ⟨a.progress_le_one t, 0 + (100 - 0) * (1 - (1 - a.progress t) ^ 3), ?_, rfl, ?_, ?_, ?_⟩
  · simp [Anim.current, Anim.difference, Anim.easeProgress, toNumber, hstart, hend]
  · have := (ease_bounds _ hp (a.progress_le_one t)).1
    linarith
  · have := (ease_bounds _ hp (a.progress_le_one t)).2
    linarith
  · intro h1
    rw [h1]; norm_num

/-- Witness of C7: the animation from 0 to 100 started at time 0, sampled at
750 ms of 1500 ms. -/
theorem C7_eased_value_bounds_witness :
    ∃ c : ℚ, Anim.current sampleBuiltins
        { element := .searchVolume, start := 0, endValue := some (.num 100),
          duration := 1500, addCommas := true, callback := none, startTime := 0 } 750
        = some c ∧
      c = 0 + (100 - 0) * (1 - (1 - Anim.progress
        { element := .searchVolume, start := 0, endValue := some (.num 100),
          duration := 1500, addCommas := true, callback := none, startTime := 0 } 750) ^ 3) ∧
      0 ≤ c ∧ c ≤ 100 ∧ (Anim.progress
        { element := .searchVolume, start := 0, endValue := some (.num 100),
          duration := 1500, addCommas := true, callback := none, startTime := 0 } 750 = 1 →
        c = 100) :=
  (C7_eased_value_bounds sampleBuiltins
    { element := .searchVolume, start := 0, endValue := some (.num 100),
      duration := 1500, addCommas := true, callback := none, startTime := 0 } 750
    rfl rfl (by norm_num) (by norm_num [Anim.progress, Anim.elapsed])).2

/-! ## Progress -/

/-- C9, refuted as stated: the animation started at 10 ms that receives the
frame timestamp 5 ms computes the progress -1/300, which is below 0 and is not
`clamp(elapsed / duration, 0, 1)`. -/
theorem C9_progress_below_zero :
    sampleAnim.progress 5 = -1 / 300 ∧ sampleAnim.progress 5 < 0 ∧
    max 0 (min (sampleAnim.elapsed 5 / sampleAnim.duration) 1) = 0 ∧
    sampleAnim.progress 5 ≠ max 0 (min (sampleAnim.elapsed 5 / sampleAnim.duration) 1) := by
  have h : sampleAnim.progress 5 = -1 / 300 := by
    norm_num [Anim.progress, Anim.elapsed, sampleAnim]
  have h2 : max 0 (min (sampleAnim.elapsed 5 / sampleAnim.duration) 1) = (0 : ℚ) := by
    norm_num [Anim.elapsed, sampleAnim]
  refine ⟨h, ?_, h2, ?_⟩
  · rw [h]; norm_num
  · rw [h, h2]; norm_num

/-- C9, amended: for every frame timestamp and every positive duration the
progress is `min(elapsed / duration, 1)` and never above 1; it equals
`clamp(elapsed / duration, 0, 1)`, and so is not below 0, when the frame
timestamp is not earlier than the start time; for an earlier frame timestamp it
is `elapsed / duration`, a negative number. -/
theorem C9_progress_amended (a : Anim) (t : ℚ) (hD : 0 < a.duration) :
    a.elapsed t = t - a.startTime ∧
    a.progress t = min (a.elapsed t / a.duration) 1 ∧
    a.progress t ≤ 1 ∧
    (a.startTime ≤ t →
      a.progress t = max 0 (min (a.elapsed t / a.duration) 1) ∧ 0 ≤ a.progress t) ∧
    (t < a.startTime →
      a.progress t = a.elapsed t / a.duration ∧ a.progress t < 0) := by
  refine ⟨rfl, rfl, a.progress_le_one t, ?_, ?_⟩
  · intro h
    have he : 0 ≤ a.elapsed t / a.duration :=
      div_nonneg (by unfold Anim.elapsed; linarith) hD.le
    have hm : 0 ≤ min (a.elapsed t / a.duration) 1 := le_min he zero_le_one
    exact ⟨(max_eq_right hm).symm, hm⟩
  · intro h
    have he : a.elapsed t / a.duration < 0 :=
      div_neg_of_neg_of_pos (by unfold Anim.elapsed; linarith) hD
    have hm : a.progress t = a.elapsed t / a.duration :=
      min_eq_left (by linarith)
    exact ⟨hm, by rw [hm]; exact he⟩

/-- Witness of the amended C9 at the animation started at 10 ms. -/
theorem C9_progress_amended_witness :
    sampleAnim.progress 5 ≤ 1 :=
  (C9_progress_amended sampleAnim 5 (by norm_num [sampleAnim])).2.2.1

end KeywordTool

namespace KeywordTool

/-! ## Traces and the loading state -/

theorem requestsOf_append (l1 l2 : List Call) :
    requestsOf (l1 ++ l2) = requestsOf l1 ++ requestsOf l2 := by
  induction l1 with
  | nil => rfl
  | cons c cs ih => cases c <;> simp [requestsOf, ih]

theorem loadingCalls_append (l1 l2 : List Call) :
    loadingCalls (l1 ++ l2) = loadingCalls l1 ++ loadingCalls l2 := by
  induction l1 with
  | nil => rfl
  | cons c cs ih => cases c <;> simp [loadingCalls, ih]

theorem Quiet.refl (w : World) : Quiet w w := ⟨rfl, rfl, rfl, rfl, rfl⟩

theorem Quiet.trans {w1 w2 w3 : World} (h1 : Quiet w1 w2) (h2 : Quiet w2 w3) :
    Quiet w1 w3 :=
  ⟨h2.requests.trans h1.requests, h2.loading.trans h1.loading,
   h2.btnDisabled.trans h1.btnDisabled, h2.btnLoading.trans h1.btnLoading,
   h2.inputDisabled.trans h1.inputDisabled⟩

theorem quiet_showError (B : Builtins) (m : JsVal) (w : World) :
    Quiet w (showError B m w) := by
  constructor <;>
    simp [showError, World.log, World.setTimeout, requestsOf_append, loadingCalls_append,
      requestsOf, loadingCalls]

theorem quiet_animateNumber (el : Counter) (s : ℚ) (e : JsVal) (d : ℚ) (c : Bool)
    (cb : Option Callback) (w : World) : Quiet w (animateNumber el s e d c cb w) := by
  constructor <;>
    simp [animateNumber, World.log, requestsOf_append, loadingCalls_append,
      requestsOf, loadingCalls]

theorem quiet_displayDifficulty (B : Builtins) (v : JsVal) (w : World) :
    Quiet w (displayDifficulty B v w) := by
  constructor <;>
    simp [displayDifficulty, animateNumber, World.log, World.setTimeout, requestsOf_append,
      loadingCalls_append, requestsOf, loadingCalls]

theorem quiet_smoothScrollToResults (w : World) : Quiet w (smoothScrollToResults w) := by
  constructor <;>
    simp [smoothScrollToResults, World.log, World.setTimeout, requestsOf_append,
      loadingCalls_append, requestsOf, loadingCalls]

theorem quiet_appendTags (B : Builtins) (xs : List Json) (i : Nat) (w : World) :
    Quiet w (appendTags B xs i w) := by
  induction xs generalizing i w with
  | nil => exact Quiet.refl w
  | cons x rest ih =>
    refine Quiet.trans ?_ (ih (i + 1) _)
    exact ⟨rfl, rfl, rfl, rfl, rfl⟩

theorem quiet_displayRelatedKeywords (B : Builtins) (ks : JsVal) (w : World) :
    QuietE w (displayRelatedKeywords B ks w) := by
  have h0 : Quiet w { (w.log .displayRelatedKeywords) with
      dom := { (w.log .displayRelatedKeywords).dom with relatedKeywords := [] } } := by
    constructor <;>
      simp [World.log, requestsOf_append, loadingCalls_append, requestsOf, loadingCalls]
  unfold displayRelatedKeywords
  rcases ks with _ | v
  · exact h0
  · cases v with
    | arr xs => exact Quiet.trans h0 (quiet_appendTags B xs 0 _)
    | _ => exact h0

theorem quietE_readProp_bind (data : JsVal) (key : String) (w0 w : World)
    (f : JsVal → Except World World) (h : Quiet w0 w) (hf : ∀ v, QuietE w0 (f v)) :
    QuietE w0 (readProp data key w >>= f) := by
  unfold readProp
  cases getProp data key with
  | ok v => exact hf v
  | error e => exact h

theorem quietE_bind (w0 : World) (r : Except World World) (f : World → Except World World)
    (h : QuietE w0 r) (hf : ∀ w, Quiet w0 w → QuietE w0 (f w)) :
    QuietE w0 (r >>= f) := by
  cases r with
  | ok w => exact hf w h
  | error e => exact h

theorem quiet_log (w : World) (c : Call) (hr : requestsOf [c] = [])
    (hl : loadingCalls [c] = []) : Quiet w (w.log c) := by
  constructor <;> simp [World.log, requestsOf_append, loadingCalls_append, hr, hl]

theorem quiet_displayResults (B : Builtins) (data : JsVal) (w : World) :
    QuietE w (displayResults B data w) := by
  unfold displayResults
  have h1 : Quiet w (w.log .displayResults) := quiet_log w _ rfl rfl
  refine quietE_readProp_bind _ _ _ _ _ h1 (fun keyword => ?_)
  have h2 : Quiet w { (w.log .displayResults) with
      dom := { (w.log .displayResults).dom with
        analyzedKeyword := textContentOf B keyword } } :=
    Quiet.trans h1 ⟨rfl, rfl, rfl, rfl, rfl⟩
  refine quietE_readProp_bind _ _ _ _ _ h2 (fun sv => ?_)
  have h3 := Quiet.trans h2 (quiet_animateNumber .searchVolume 0 sv 1500 true none _)
  refine quietE_readProp_bind _ _ _ _ _ h3 (fun d => ?_)
  have h4 := Quiet.trans h3 (quiet_displayDifficulty B d _)
  refine quietE_readProp_bind _ _ _ _ _ h4 (fun e => ?_)
  have h5 := Quiet.trans h4 (quiet_animateNumber .earnings 0 e 1500 false none _)
  refine quietE_readProp_bind _ _ _ _ _ h5 (fun rk => ?_)
  refine quietE_bind _ _ _ ?_ (fun w6 h6 => ?_)
  · have h := quiet_displayRelatedKeywords B rk
      (animateNumber .earnings 0 e 1500 false none (displayDifficulty B d
        (animateNumber .searchVolume 0 sv 1500 true none
          { (w.log .displayResults) with
            dom := { (w.log .displayResults).dom with
              analyzedKeyword := textContentOf B keyword } })))
    revert h
    cases displayRelatedKeywords B rk _ with
    | ok w7 => exact fun h => Quiet.trans h5 h
    | error w7 => exact fun h => Quiet.trans h5 h
  · exact Quiet.trans h6 ⟨rfl, rfl, rfl, rfl, rfl⟩

theorem quiet_handleAnalyzeTryCatch (B : Builtins) (outcome : FetchOutcome) (w : World) :
    Quiet w (handleAnalyzeTryCatch B outcome w) := by
  have hcatch : ∀ w2, Quiet w w2 → Quiet w (handleAnalyzeCatch B w2) := by
    intro w2 h
    exact Quiet.trans h (Quiet.trans (quiet_log w2 .consoleError rfl rfl)
      (quiet_showError B _ _))
  have htry : QuietE w (handleAnalyzeTry B outcome w) := by
    unfold handleAnalyzeTry
    rcases outcome with _ | ⟨status, _ | data⟩
    · exact Quiet.refl w
    · exact Quiet.refl w
    · by_cases hok : responseOk status = true
      · simp only [hok, if_true]
        refine quietE_bind _ _ _ (quiet_displayResults B _ w) (fun w2 h2 => ?_)
        exact Quiet.trans h2 (quiet_smoothScrollToResults w2)
      · simp only [hok]
        refine quietE_readProp_bind _ _ _ _ _ (Quiet.refl w) (fun e => ?_)
        exact quiet_showError B _ w
  unfold handleAnalyzeTryCatch
  revert htry
  cases handleAnalyzeTry B outcome w with
  | ok w2 => exact fun h => h
  | error w2 => exact fun h => hcatch w2 h

theorem jsTrim_eq_empty_iff (s : String) :
    jsTrim s = "" ↔ ∀ c ∈ s.data, isJsWhiteSpace c = true := by
  have hs : ∀ l : List Char, (String.mk l = "") ↔ l = [] := by
    intro l
    constructor
    · intro h
      have := congrArg String.data h
      simpa using this
    · intro h
      rw [h]
  unfold jsTrim
  rw [hs, List.reverse_eq_nil_iff, List.dropWhile_eq_nil_iff]
  constructor
  · intro h
    have hnil : s.data.dropWhile isJsWhiteSpace = [] := by
      by_contra hne
      have hhead := List.head_dropWhile_not isJsWhiteSpace s.data hne
      have hmem : (s.data.dropWhile isJsWhiteSpace).head hne ∈
          (s.data.dropWhile isJsWhiteSpace).reverse :=
        List.mem_reverse.mpr (List.head_mem hne)
      rw [h _ hmem] at hhead
      exact absurd hhead (by decide)
    exact List.dropWhile_eq_nil_iff.mp hnil
  · intro h
    have hnil : s.data.dropWhile isJsWhiteSpace = [] := List.dropWhile_eq_nil_iff.mpr h
    rw [hnil]
    intro x hx
    simp at hx

theorem handleAnalyzeStart_valid (B : Builtins) (w : World)
    (h : jsTrim w.dom.keywordInputValue ≠ "") :
    handleAnalyzeStart B w =
      .awaiting ((hideResults (hideError (setLoadingState true (w.log .handleAnalyze)))).log
        (.fetch (analyzeRequest (jsTrim w.dom.keywordInputValue)))) := by
  unfold handleAnalyzeStart
  simp only [World.log]
  rw [if_neg h]

theorem handleAnalyzeStart_invalid (B : Builtins) (w : World)
    (h : jsTrim w.dom.keywordInputValue = "") :
    handleAnalyzeStart B w =
      .returned (showError B (some (.str "Please enter a keyword to analyze"))
        (w.log .handleAnalyze)) := by
  unfold handleAnalyzeStart
  simp only [World.log]
  rw [if_pos h]

theorem log_trace (w : World) (c : Call) : (w.log c).trace = w.trace ++ [c] := rfl

theorem setLoadingState_trace (b : Bool) (w : World) :
    (setLoadingState b w).trace = w.trace ++ [.setLoadingState b] := by
  cases b <;> rfl

theorem hideError_trace (w : World) : (hideError w).trace = w.trace ++ [.hideError] := rfl

theorem hideResults_trace (w : World) : (hideResults w).trace = w.trace ++ [.hideResults] := rfl

theorem showError_trace (B : Builtins) (m : JsVal) (w : World) :
    (showError B m w).trace = w.trace ++ [.showError m] := rfl

theorem textContentOf_str (B : Builtins) (s : String) :
    textContentOf B (some (.str s)) = s := by
  simp [textContentOf, Json.toStr]

theorem showError_dom (B : Builtins) (m : JsVal) (w : World) :
    (showError B m w).dom =
      { w.dom with errorText := textContentOf B m, errorHidden := false } := rfl

/-- The world in which a run with a valid keyword is suspended. -/
theorem started_trace (w : World) (r : Request) :
    ((hideResults (hideError (setLoadingState true (w.log .handleAnalyze)))).log
      (.fetch r)).trace =
      w.trace ++ [.handleAnalyze, .setLoadingState true, .hideError, .hideResults, .fetch r] := by
  simp [log_trace, hideResults_trace, hideError_trace, setLoadingState_trace]

/-! ## The request flow -/

/-- C1: when the trimmed value of the input is not empty, a run of
`handleAnalyze` first sets the loading state, hides the banner and the
results, and then issues one request, a POST to `/analyze` with the header
`Content-Type: application/json` and the body with the trimmed value under
`keyword`; it is then suspended with the input and the submit control
disabled, they are still disabled when control reaches the `finally` block,
and the whole run adds exactly that one request to the trace. -/
theorem C1_one_post_request (B : Builtins) (outcome : FetchOutcome) (w : World)
    (h : jsTrim w.dom.keywordInputValue ≠ "") :
    ∃ w1, handleAnalyzeStart B w = .awaiting w1 ∧
      w1.trace = w.trace ++ [.handleAnalyze, .setLoadingState true, .hideError, .hideResults,
        .fetch (analyzeRequest (jsTrim w.dom.keywordInputValue))] ∧
      (analyzeRequest (jsTrim w.dom.keywordInputValue)).url = "/analyze" ∧
      (analyzeRequest (jsTrim w.dom.keywordInputValue)).method = "POST" ∧
      (analyzeRequest (jsTrim w.dom.keywordInputValue)).headers =
        [("Content-Type", "application/json")] ∧
      (analyzeRequest (jsTrim w.dom.keywordInputValue)).body =
        .obj [("keyword", .str (jsTrim w.dom.keywordInputValue))] ∧
      (setLoadingState true (w.log .handleAnalyze)).dom.keywordInputDisabled = true ∧
      (setLoadingState true (w.log .handleAnalyze)).dom.analyzeBtnDisabled = true ∧
      w1.dom.keywordInputDisabled = true ∧ w1.dom.analyzeBtnDisabled = true ∧
      (handleAnalyzeTryCatch B outcome w1).dom.keywordInputDisabled = true ∧
      (handleAnalyzeTryCatch B outcome w1).dom.analyzeBtnDisabled = true ∧
      requestsOf (handleAnalyze B outcome w).trace =
        requestsOf w.trace ++ [analyzeRequest (jsTrim w.dom.keywordInputValue)] := by
  refine ⟨_, handleAnalyzeStart_valid B w h, started_trace w _, rfl, rfl, rfl, rfl, rfl, rfl,
    rfl, rfl, ?_, ?_, ?_⟩
  · rw [(quiet_handleAnalyzeTryCatch B outcome _).inputDisabled]
    rfl
  · rw [(quiet_handleAnalyzeTryCatch B outcome _).btnDisabled]
    rfl
  · unfold handleAnalyze
    rw [handleAnalyzeStart_valid B w h]
    simp only [handleAnalyzeSettle]
    rw [setLoadingState_trace, requestsOf_append,
      (quiet_handleAnalyzeTryCatch B outcome _).requests, started_trace, requestsOf_append]
    simp [requestsOf]

/-- Witness of C1: the keyword ` mug ` typed into the freshly loaded page, and
a request that is rejected. -/
theorem C1_one_post_request_witness :
    requestsOf (handleAnalyze sampleBuiltins .rejected (World.typed " mug ")).trace =
      [analyzeRequest "mug"] :=
  (C1_one_post_request sampleBuiltins .rejected (World.typed " mug ") (by decide)).elim
    fun _ h => h.2.2.2.2.2.2.2.2.2.2.2.2

/-- C2: when the value of the input is empty or holds only white space,
`handleAnalyze` returns at once: the trace gains the call itself and the
`showError` call only, so no request is made and `setLoadingState` is not
called; the banner is shown with the validation message; the disabled flags,
the loading marker and the visibility of the results are as before. -/
theorem C2_empty_keyword (B : Builtins) (outcome : FetchOutcome) (w : World)
    (h : ∀ c ∈ w.dom.keywordInputValue.data, isJsWhiteSpace c = true) :
    ∃ w1, handleAnalyzeStart B w = .returned w1 ∧
      handleAnalyze B outcome w = w1 ∧
      w1.trace = w.trace ++ [.handleAnalyze,
        .showError (some (.str "Please enter a keyword to analyze"))] ∧
      requestsOf w1.trace = requestsOf w.trace ∧
      loadingCalls w1.trace = loadingCalls w.trace ∧
      w1.dom.errorHidden = false ∧
      w1.dom.errorText = "Please enter a keyword to analyze" ∧
      w1.dom.keywordInputDisabled = w.dom.keywordInputDisabled ∧
      w1.dom.analyzeBtnDisabled = w.dom.analyzeBtnDisabled ∧
      w1.dom.analyzeBtnLoading = w.dom.analyzeBtnLoading ∧
      w1.dom.resultsHidden = w.dom.resultsHidden := by
  have he : jsTrim w.dom.keywordInputValue = "" := (jsTrim_eq_empty_iff _).mpr h
  refine ⟨_, handleAnalyzeStart_invalid B w he, ?_, ?_, ?_, ?_, rfl, ?_, rfl, rfl, rfl, rfl⟩
  · unfold handleAnalyze
    rw [handleAnalyzeStart_invalid B w he]
  · simp [showError_trace, log_trace]
  · simp [showError_trace, log_trace, requestsOf_append, requestsOf]
  · simp [showError_trace, log_trace, loadingCalls_append, loadingCalls]
  · rw [showError_dom]
    exact textContentOf_str B _

/-- Witness of C2: three blanks typed into the freshly loaded page. -/
theorem C2_empty_keyword_witness :
    ∃ w1, handleAnalyzeStart sampleBuiltins (World.typed "   ") = .returned w1 ∧
      requestsOf w1.trace = [] ∧
      w1.dom.errorText = "Please enter a keyword to analyze" :=
  let ⟨w1, h1, _, _, h4, _, _, h7, _⟩ :=
    C2_empty_keyword sampleBuiltins .rejected (World.typed "   ") (by decide)
  ⟨w1, h1, h4, h7⟩

/-- C4: in every run of `handleAnalyze` that issues a request, however the
request settles (a 2xx response, another response, a rejected `fetch` or a
body that does not parse, a throw while rendering), `setLoadingState(false)` is
called exactly once, after the one `setLoadingState(true)`, as the last call of
the run; on return the input and the submit control are enabled and the submit
control does not carry the loading marker. -/
theorem C4_loading_cleared_once (B : Builtins) (outcome : FetchOutcome) (w : World)
    (h : jsTrim w.dom.keywordInputValue ≠ "") :
    loadingCalls (handleAnalyze B outcome w).trace = loadingCalls w.trace ++ [true, false] ∧
    (handleAnalyze B outcome w).trace =
      (handleAnalyzeTryCatch B outcome (handleAnalyzeStart B w).world).trace ++
        [.setLoadingState false] ∧
    (handleAnalyze B outcome w).dom.keywordInputDisabled = false ∧
    (handleAnalyze B outcome w).dom.analyzeBtnDisabled = false ∧
    (handleAnalyze B outcome w).dom.analyzeBtnLoading = false := by
  unfold handleAnalyze
  rw [handleAnalyzeStart_valid B w h]
  simp only [handleAnalyzeSettle, Run.world]
  refine ⟨?_, setLoadingState_trace _ _, rfl, rfl, rfl⟩
  rw [setLoadingState_trace, loadingCalls_append,
    (quiet_handleAnalyzeTryCatch B outcome _).loading, started_trace, loadingCalls_append]
  simp [loadingCalls]

/-- Witness of C4: the keyword `mug` and a response with status 500 whose body
does not parse. -/
theorem C4_loading_cleared_once_witness :
    loadingCalls (handleAnalyze sampleBuiltins (.response 500 none) (World.typed "mug")).trace =
      [true, false] :=
  (C4_loading_cleared_once sampleBuiltins (.response 500 none) (World.typed "mug")
    (by decide)).1

/-! ## The error banner after a failed response -/

theorem setLoadingState_errorText (b : Bool) (w : World) :
    (setLoadingState b w).dom.errorText = w.dom.errorText := by
  cases b <;> rfl

theorem setLoadingState_errorHidden (b : Bool) (w : World) :
    (setLoadingState b w).dom.errorHidden = w.dom.errorHidden := by
  cases b <;> rfl

/-- The banner after a response that is not 2xx and whose body is not
`null`: the text is the `error` property when truthy, else the generic text. -/
theorem settle_failure (B : Builtins) (status : Nat) (data : Json) (w : World)
    (hok : responseOk status = false) (e : JsVal)
    (he : getProp (some data) "error" = .ok e) :
    handleAnalyzeSettle B (.response status (some data)) w =
      setLoadingState false (showError B
        (if truthy e then e
         else some (.str "An error occurred while analyzing the keyword")) w) := by
  unfold handleAnalyzeSettle handleAnalyzeTryCatch handleAnalyzeTry
  simp only [hok, readProp, he]
  rfl

/-- After a response that is not 2xx and whose body is `null`, reading
`data.error` throws and the `catch` block runs. -/
theorem settle_null (B : Builtins) (status : Nat) (w : World)
    (hok : responseOk status = false) :
    handleAnalyzeSettle B (.response status (some .null)) w =
      setLoadingState false (handleAnalyzeCatch B w) := by
  unfold handleAnalyzeSettle handleAnalyzeTryCatch handleAnalyzeTry
  simp only [hok, readProp, getProp]
  rfl

theorem getProp_ok_of_ne_null (data : Json) (key : String) (h : data ≠ .null) :
    ∃ e, getProp (some data) key = .ok e := by
  cases data with
  | null => exact absurd rfl h
  | bool b => exact ⟨_, rfl⟩
  | num q => exact ⟨_, rfl⟩
  | str s => exact ⟨_, rfl⟩
  | arr xs => exact ⟨_, rfl⟩
  | obj kvs => exact ⟨_, rfl⟩

/-- C5, refuted as stated: after a response with status 429 whose body is the
object with `error` set to the empty string, the `error` property is present
but the banner shows the generic message; and after a response with status 429
whose body is `null`, which parses, the banner shows the connection message. -/
theorem C5_present_but_falsy :
    getProp (some (.obj [("error", .str "")])) "error" = .ok (some (.str "")) ∧
    (handleAnalyze sampleBuiltins (.response 429 (some (.obj [("error", .str "")])))
      (World.typed "mug")).dom.errorText =
        "An error occurred while analyzing the keyword" ∧
    (handleAnalyze sampleBuiltins (.response 429 (some .null))
      (World.typed "mug")).dom.errorText =
        "Failed to connect to the server. Please try again." := by
  refine ⟨rfl, ?_, ?_⟩
  · unfold handleAnalyze
    rw [handleAnalyzeStart_valid _ _ (by decide)]
    simp only []
    rw [settle_failure sampleBuiltins 429 (.obj [("error", .str "")]) _ (by decide)
      (some (.str "")) rfl, setLoadingState_errorText, showError_dom]
    simp [truthy, textContentOf_str]
  · unfold handleAnalyze
    rw [handleAnalyzeStart_valid _ _ (by decide)]
    simp only []
    rw [settle_null _ _ _ (by decide), setLoadingState_errorText]
    unfold handleAnalyzeCatch
    rw [showError_dom]
    exact textContentOf_str _ _

/-- C5, amended: after a response that is not 2xx and whose body parses to a
value other than `null`, the banner is shown and its text is the `error`
property of the body, as a string, when that property is truthy (for a string:
when it is not empty), and the generic message when the property is absent or
falsy; status 429 with the body `error: "rate limited"` shows exactly
`rate limited`. -/
theorem C5_error_field_amended (B : Builtins) (status : Nat) (data : Json) (w : World)
    (hok : responseOk status = false) (hdata : data ≠ .null) :
    (∃ e, getProp (some data) "error" = .ok e ∧
      (handleAnalyzeSettle B (.response status (some data)) w).dom.errorHidden = false ∧
      (truthy e = true →
        (handleAnalyzeSettle B (.response status (some data)) w).dom.errorText =
          textContentOf B e) ∧
      (∀ s : String, e = some (.str s) → s ≠ "" →
        (handleAnalyzeSettle B (.response status (some data)) w).dom.errorText = s) ∧
      (truthy e = false →
        (handleAnalyzeSettle B (.response status (some data)) w).dom.errorText =
          "An error occurred while analyzing the keyword") ∧
      (e = none →
        (handleAnalyzeSettle B (.response status (some data)) w).dom.errorText =
          "An error occurred while analyzing the keyword")) ∧
    (handleAnalyzeSettle B (.response 429 (some (.obj [("error", .str "rate limited")])))
      w).dom.errorText = "rate limited" := by
  have hgen : ∀ (st : Nat) (d : Json) (e : JsVal), responseOk st = false →
      getProp (some d) "error" = .ok e →
      (handleAnalyzeSettle B (.response st (some d)) w).dom.errorHidden = false ∧
      (truthy e = true →
        (handleAnalyzeSettle B (.response st (some d)) w).dom.errorText =
          textContentOf B e) ∧
      (truthy e = false →
        (handleAnalyzeSettle B (.response st (some d)) w).dom.errorText =
          "An error occurred while analyzing the keyword") := by
    intro st d e hst he
    rw [settle_failure B st d w hst e he, setLoadingState_errorText,
      setLoadingState_errorHidden, showError_dom]
    refine ⟨rfl, ?_, ?_⟩
    · intro ht
      simp [ht]
    · intro hf
      simp [hf, textContentOf_str]
  obtain ⟨e, he⟩ := getProp_ok_of_ne_null data "error" hdata
  obtain ⟨h1, h2, h3⟩ := hgen status data e hok he
  refine ⟨⟨e, he, h1, h2, ?_, h3, ?_⟩, ?_⟩
  · intro s hs hne
    have ht : truthy e = true := by
      rw [hs]
      simp [truthy, hne]
    rw [h2 ht, hs]
    exact textContentOf_str B s
  · intro hn
    exact h3 (by rw [hn]; rfl)
  · have := (hgen 429 (.obj [("error", .str "rate limited")]) (some (.str "rate limited"))
      (by decide) rfl).2.1 (by decide)
    rw [this]
    exact textContentOf_str B _

/-- Witness of the amended C5: status 429 and the body `error: "rate limited"`
after the keyword `mug` was submitted. -/
theorem C5_error_field_amended_witness :
    (handleAnalyzeSettle sampleBuiltins
      (.response 429 (some (.obj [("error", .str "rate limited")])))
      (handleAnalyzeStart sampleBuiltins (World.typed "mug")).world).dom.errorText =
        "rate limited" :=
  (C5_error_field_amended sampleBuiltins 429 (.obj [("error", .str "rate limited")])
    (handleAnalyzeStart sampleBuiltins (World.typed "mug")).world (by decide)
    (fun h => Json.noConfusion h)).2

/-! ## Related keywords -/

theorem appendTags_tags (B : Builtins) (xs : List Json) (i : Nat) (w : World) :
    (appendTags B xs i w).dom.relatedKeywords =
      w.dom.relatedKeywords ++ (xs.enumFrom i).map fun p => makeTag B p.2 p.1 := by
  induction xs generalizing i w with
  | nil => simp [appendTags]
  | cons x rest ih =>
    rw [appendTags, ih]
    simp [List.enumFrom]

theorem inputValueOf_str (B : Builtins) (k : String) : inputValueOf B (.str k) = k := by
  simp [inputValueOf, Json.toStr]

theorem sanitizeValue_eq_self (k : String)
    (h : ∀ c ∈ k.data, c.toNat ≠ 0x0A ∧ c.toNat ≠ 0x0D) : sanitizeValue k = k := by
  unfold sanitizeValue
  have hf : k.data.filter (fun c => !(c.toNat == 0x0A || c.toNat == 0x0D)) = k.data := by
    rw [List.filter_eq_self]
    intro c hc
    obtain ⟨h1, h2⟩ := h c hc
    simp [h1, h2]
  rw [hf]

theorem onTagClick_valid (B : Builtins) (tag : Tag) (w : World)
    (h : jsTrim (sanitizeValue (inputValueOf B tag.keyword)) ≠ "") :
    requestsOf (onTagClick B tag w).world.trace =
      requestsOf w.trace ++
        [analyzeRequest (jsTrim (sanitizeValue (inputValueOf B tag.keyword)))] := by
  unfold onTagClick
  simp only []
  rw [handleAnalyzeStart_valid B _ h]
  simp only [Run.world, log_trace, hideResults_trace, hideError_trace, setLoadingState_trace,
    requestsOf_append]
  simp [requestsOf, World.setInputValue]

theorem onTagClick_invalid (B : Builtins) (tag : Tag) (w : World)
    (h : jsTrim (sanitizeValue (inputValueOf B tag.keyword)) = "") :
    requestsOf (onTagClick B tag w).world.trace = requestsOf w.trace ∧
    (onTagClick B tag w).world.dom.errorHidden = false ∧
    (onTagClick B tag w).world.dom.errorText = "Please enter a keyword to analyze" := by
  unfold onTagClick
  simp only []
  rw [handleAnalyzeStart_invalid B _ h]
  simp only [Run.world, log_trace, showError_trace, requestsOf_append]
  refine ⟨by simp [requestsOf, World.setInputValue], rfl, ?_⟩
  show (showError B _ _).dom.errorText = _
  rw [showError_dom]
  exact textContentOf_str B _

/-- C6, refuted as stated: each of the keywords `custom`, line feed, `mug` and
three blanks is rendered as one tag; a click on the tag of the first issues the
request for `custommug`, which is not that keyword, and a click on the tag of
the second issues no request and shows the validation error. -/
theorem C6_click_analyses_other_keyword :
    displayRelatedKeywords sampleBuiltins (some (.arr [.str "custom\nmug", .str "   "]))
      World.initial =
      .ok (appendTags sampleBuiltins [.str "custom\nmug", .str "   "] 0
        { (World.initial.log .displayRelatedKeywords) with
          dom := { (World.initial.log .displayRelatedKeywords).dom with
            relatedKeywords := [] } }) ∧
    (makeTag sampleBuiltins (.str "custom\nmug") 0).keyword = .str "custom\nmug" ∧
    requestsOf (onTagClick sampleBuiltins (makeTag sampleBuiltins (.str "custom\nmug") 0)
      World.initial).world.trace = [analyzeRequest "custommug"] ∧
    (analyzeRequest "custommug").body = .obj [("keyword", .str "custommug")] ∧
    "custommug" ≠ "custom\nmug" ∧
    requestsOf (onTagClick sampleBuiltins (makeTag sampleBuiltins (.str "   ") 1)
      World.initial).world.trace = [] ∧
    (onTagClick sampleBuiltins (makeTag sampleBuiltins (.str "   ") 1)
      World.initial).world.dom.errorText = "Please enter a keyword to analyze" := by
  have hk1 : inputValueOf sampleBuiltins (makeTag sampleBuiltins (.str "custom\nmug") 0).keyword
      = "custom\nmug" := inputValueOf_str _ _
  have hk2 : inputValueOf sampleBuiltins (makeTag sampleBuiltins (.str "   ") 1).keyword
      = "   " := inputValueOf_str _ _
  have h1 := onTagClick_valid sampleBuiltins (makeTag sampleBuiltins (.str "custom\nmug") 0)
    World.initial (by rw [hk1]; decide)
  have h2 := onTagClick_invalid sampleBuiltins (makeTag sampleBuiltins (.str "   ") 1)
    World.initial (by rw [hk2]; decide)
  rw [hk1] at h1
  refine ⟨rfl, rfl, ?_, rfl, by decide, ?_, h2.2.2⟩
  · rw [h1]
    rfl
  · rw [h2.1]
    rfl

/-- C6, amended: for every array of related keywords, `displayRelatedKeywords`
returns normally and leaves in the container, whatever it held before, exactly
one tag per keyword in the given order, the tag at index `i` built from the
keyword at index `i` (no tag for the empty array).  The click listener of the
tag of a string keyword assigns that keyword to the input, which removes line
breaks, and calls `handleAnalyze`; that call issues one request for the trimmed
value of the input when it is not empty, and otherwise no request and the
validation error; the request carries the keyword itself when the keyword has
no line break and no white space at either end and is not empty. -/
theorem C6_related_keywords_amended (B : Builtins) (xs : List Json) (w : World) :
    ∃ w1, displayRelatedKeywords B (some (.arr xs)) w = .ok w1 ∧
      w1.dom.relatedKeywords = (xs.enum).map (fun p => makeTag B p.2 p.1) ∧
      w1.dom.relatedKeywords.length = xs.length ∧
      (∀ i : Nat, w1.dom.relatedKeywords[i]? = (xs[i]?).map fun k => makeTag B k i) ∧
      (xs = [] → w1.dom.relatedKeywords = []) ∧
      (∀ (i : Nat) (tag : Tag) (k : String) (w2 : World),
        w1.dom.relatedKeywords[i]? = some tag → xs[i]? = some (.str k) →
          tag.innerHTML = tagMarkupHead ++ k ++ tagMarkupTail ∧
          (onTagClick B tag w2).world =
            (handleAnalyzeStart B (w2.setInputValue k)).world.log .scrollToTop ∧
          (w2.setInputValue k).dom.keywordInputValue = sanitizeValue k ∧
          (jsTrim (sanitizeValue k) ≠ "" →
            requestsOf (onTagClick B tag w2).world.trace =
              requestsOf w2.trace ++ [analyzeRequest (jsTrim (sanitizeValue k))]) ∧
          (jsTrim (sanitizeValue k) = "" →
            requestsOf (onTagClick B tag w2).world.trace = requestsOf w2.trace ∧
            (onTagClick B tag w2).world.dom.errorHidden = false ∧
            (onTagClick B tag w2).world.dom.errorText =
              "Please enter a keyword to analyze") ∧
          ((∀ c ∈ k.data, c.toNat ≠ 0x0A ∧ c.toNat ≠ 0x0D) → jsTrim k = k → k ≠ "" →
            requestsOf (onTagClick B tag w2).world.trace =
              requestsOf w2.trace ++ [analyzeRequest k])) := by
  have htags : (appendTags B xs 0
      { (w.log .displayRelatedKeywords) with
        dom := { (w.log .displayRelatedKeywords).dom with
          relatedKeywords := [] } }).dom.relatedKeywords =
      (xs.enum).map (fun p => makeTag B p.2 p.1) := by
    rw [appendTags_tags]
    simp [List.enum]
  have hget : ∀ i : Nat, ((xs.enum).map (fun p => makeTag B p.2 p.1))[i]? =
      (xs[i]?).map fun k => makeTag B k i := by
    intro i
    simp [List.enum, List.getElem?_enumFrom]
    cases xs[i]? <;> simp
  refine ⟨_, rfl, htags, ?_, ?_, ?_, ?_⟩
  · rw [htags]; simp
  · intro i
    rw [htags]; exact hget i
  · intro hx
    rw [htags, hx]; rfl
  · intro i tag k w2 htag hk
    rw [htags, hget i, hk] at htag
    simp only [Option.map_some', Option.some.injEq] at htag
    subst htag
    have hkey : inputValueOf B (makeTag B (.str k) i).keyword = k := inputValueOf_str B k
    have hv := onTagClick_valid B (makeTag B (.str k) i) w2
    have hi := onTagClick_invalid B (makeTag B (.str k) i) w2
    rw [hkey] at hv hi
    refine ⟨?_, ?_, rfl, hv, hi, ?_⟩
    · simp [makeTag, Json.toStr]
    · unfold onTagClick
      simp only [hkey]
      cases handleAnalyzeStart B (w2.setInputValue k) <;> rfl
    · intro hnl htrim hne
      have hs : sanitizeValue k = k := sanitizeValue_eq_self k hnl
      rw [hs, htrim] at hv
      exact hv hne

/-! ## The banner and its timers -/

theorem runTimer_errorText (B : Builtins) (x : Timer) (w : World) :
    (runTimer B x w).dom.errorText = w.dom.errorText := by
  unfold runTimer
  cases x.action <;> rfl

theorem runTimer_errorHidden (B : Builtins) (x : Timer) (w : World) :
    (runTimer B x w).dom.errorHidden = (w.dom.errorHidden || x.action.isHideError) := by
  unfold runTimer
  cases x.action <;> simp [hideError, World.log, TimerAction.isHideError]

theorem runTimer_other (B : Builtins) (x : Timer) (w : World) :
    (runTimer B x w).timers = w.timers ∧ (runTimer B x w).now = w.now ∧
    (runTimer B x w).dom.keywordInputValue = w.dom.keywordInputValue := by
  unfold runTimer
  cases x.action <;> exact ⟨rfl, rfl, rfl⟩

theorem foldl_runTimer (B : Builtins) (l : List Timer) (w : World) :
    (l.foldl (fun acc x => runTimer B x acc) w).dom.errorText = w.dom.errorText ∧
    (l.foldl (fun acc x => runTimer B x acc) w).dom.errorHidden =
      (w.dom.errorHidden || l.any fun x => x.action.isHideError) ∧
    (l.foldl (fun acc x => runTimer B x acc) w).timers = w.timers ∧
    (l.foldl (fun acc x => runTimer B x acc) w).now = w.now ∧
    (l.foldl (fun acc x => runTimer B x acc) w).dom.keywordInputValue =
      w.dom.keywordInputValue := by
  induction l generalizing w with
  | nil => simp
  | cons x rest ih =>
    simp only [List.foldl_cons, List.any_cons]
    obtain ⟨h1, h2, h3, h4, h5⟩ := ih (runTimer B x w)
    obtain ⟨g1, g2, g3⟩ := runTimer_other B x w
    refine ⟨h1.trans (runTimer_errorText B x w), ?_, h3.trans g1, h4.trans g2, h5.trans g3⟩
    rw [h2, runTimer_errorHidden, Bool.or_assoc]

theorem advanceTo_errorText (B : Builtins) (t : ℚ) (w : World) :
    (advanceTo B t w).dom.errorText = w.dom.errorText :=
  (foldl_runTimer B _ _).1

theorem advanceTo_timers (B : Builtins) (t : ℚ) (w : World) :
    (advanceTo B t w).timers = w.timers.filter fun x => !decide (x.due ≤ t) :=
  (foldl_runTimer B _ _).2.2.1

theorem advanceTo_now (B : Builtins) (t : ℚ) (w : World) :
    (advanceTo B t w).now = max w.now t :=
  (foldl_runTimer B _ _).2.2.2.1

theorem advanceTo_value (B : Builtins) (t : ℚ) (w : World) :
    (advanceTo B t w).dom.keywordInputValue = w.dom.keywordInputValue :=
  (foldl_runTimer B _ _).2.2.2.2

/-- The banner is hidden after the clock has moved to `t` exactly when it was
hidden before or a pending `hideError` timer was due by `t`. -/
theorem advanceTo_errorHidden (B : Builtins) (t : ℚ) (w : World) :
    (advanceTo B t w).dom.errorHidden =
      (w.dom.errorHidden ||
        w.timers.any fun x => x.action.isHideError && decide (x.due ≤ t)) := by
  have h := (foldl_runTimer B
    ((w.timers.filter fun x => decide (x.due ≤ t)).insertionSort fun x y => x.due ≤ y.due)
    { w with now := max w.now t,
             timers := w.timers.filter fun x => !decide (x.due ≤ t) }).2.1
  unfold advanceTo
  simp only []
  rw [h]
  congr 1
  rw [Bool.eq_iff_iff]
  simp only [List.any_eq_true, Bool.and_eq_true, decide_eq_true_eq]
  constructor
  · rintro ⟨x, hx, hh⟩
    have hx2 := (List.perm_insertionSort _ _).mem_iff.mp hx
    rw [List.mem_filter] at hx2
    exact ⟨x, hx2.1, hh, by simpa using hx2.2⟩
  · rintro ⟨x, hx, hh, hd⟩
    refine ⟨x, ?_, hh⟩
    apply (List.perm_insertionSort _ _).mem_iff.mpr
    rw [List.mem_filter]
    exact ⟨hx, by simpa using hd⟩

theorem setLoadingState_other (b : Bool) (w : World) :
    (setLoadingState b w).timers = w.timers ∧ (setLoadingState b w).now = w.now ∧
    (setLoadingState b w).frames = w.frames ∧
    (setLoadingState b w).dom.keywordInputValue = w.dom.keywordInputValue := by
  cases b <;> exact ⟨rfl, rfl, rfl, rfl⟩

theorem bannerShown_eq :
    bannerShown = setLoadingState false (showError sampleBuiltins (some (.str "rate limited"))
      ((hideResults (hideError (setLoadingState true
        ((World.typed "mug").log .handleAnalyze)))).log (.fetch (analyzeRequest "mug")))) := by
  unfold bannerShown handleAnalyze rateLimited
  rw [handleAnalyzeStart_valid _ _ (by decide)]
  simp only []
  rw [settle_failure sampleBuiltins 429 (.obj [("error", .str "rate limited")]) _ (by decide)
    (some (.str "rate limited")) rfl]
  rfl

theorem bannerShown_facts :
    bannerShown.now = 0 ∧ bannerShown.dom.errorHidden = false ∧
    bannerShown.dom.errorText = "rate limited" ∧
    bannerShown.timers = [{ due := 0 + 5000, action := .hideError }] := by
  rw [bannerShown_eq]
  refine ⟨?_, ?_, ?_, ?_⟩
  · rw [(setLoadingState_other _ _).2.1]; rfl
  · rw [setLoadingState_errorHidden]; rfl
  · rw [setLoadingState_errorText, showError_dom]; exact textContentOf_str _ _
  · rw [(setLoadingState_other _ _).1]; rfl

theorem bannerShownAgain_eq :
    bannerShownAgain =
      showError sampleBuiltins (some (.str "Please enter a keyword to analyze"))
        ((onInput "" (advanceTo sampleBuiltins 3000 bannerShown)).log .handleAnalyze) := by
  unfold bannerShownAgain
  rw [handleAnalyzeStart_invalid _ _ (by rfl)]
  rfl

/-- C10, refuted as stated: the banner shows `rate limited` at time 0; at
time 3000, with no dismissal in between, the validation error is shown in the
same banner, which from then on carries the new message and not the first one;
and at time 5000, two seconds after the second error was shown and again with
no dismissal, the banner is hidden, by the timer of the first error. -/
theorem C10_banner_replaced_and_cut_short :
    bannerShown.now = 0 ∧ bannerShown.dom.errorHidden = false ∧
    bannerShown.dom.errorText = "rate limited" ∧
    (advanceTo sampleBuiltins 3000 bannerShown).dom.errorHidden = false ∧
    bannerShownAgain.now = 3000 ∧ bannerShownAgain.dom.errorHidden = false ∧
    bannerShownAgain.dom.errorText = "Please enter a keyword to analyze" ∧
    (advanceTo sampleBuiltins 5000 bannerShownAgain).now = 5000 ∧
    (advanceTo sampleBuiltins 5000 bannerShownAgain).dom.errorText =
      "Please enter a keyword to analyze" ∧
    (advanceTo sampleBuiltins 5000 bannerShownAgain).dom.errorHidden = true := by
  obtain ⟨h1, h2, h3, h4⟩ := bannerShown_facts
  have hnow : bannerShownAgain.now = 3000 := by
    rw [bannerShownAgain_eq]
    show (advanceTo sampleBuiltins 3000 bannerShown).now = 3000
    rw [advanceTo_now, h1]; norm_num
  have htimers : bannerShownAgain.timers =
      [{ due := 0 + 5000, action := .hideError }, { due := 3000 + 5000, action := .hideError }] := by
    rw [bannerShownAgain_eq]
    show (advanceTo sampleBuiltins 3000 bannerShown).timers ++
      [{ due := (advanceTo sampleBuiltins 3000 bannerShown).now + 5000, action := .hideError }] = _
    rw [advanceTo_timers, advanceTo_now, h1, h4]
    norm_num [List.filter]
  have htext : bannerShownAgain.dom.errorText = "Please enter a keyword to analyze" := by
    rw [bannerShownAgain_eq, showError_dom]; exact textContentOf_str _ _
  refine ⟨h1, h2, h3, ?_, hnow, ?_, htext, ?_, ?_, ?_⟩
  · rw [advanceTo_errorHidden, h2, h4]
    norm_num [TimerAction.isHideError]
  · rw [bannerShownAgain_eq]; rfl
  · rw [advanceTo_now, hnow]; norm_num
  · rw [advanceTo_errorText, htext]
  · rw [advanceTo_errorHidden, htimers]
    norm_num [TimerAction.isHideError]

/-- C10, amended: `showError` shows the banner with the message and sets a
timer that hides it 5 seconds later.  Once the clock reaches that time the
banner is hidden.  Before that time, when no `hideError` timer of an earlier
error falls due, the passing of time leaves the banner visible with the
message.  The close control, Escape in the focused input and the start of a
new request hide the banner at once, and a later `showError` puts its own
message in the same banner. -/
theorem C10_banner_amended (B : Builtins) (m : JsVal) (w : World) (t : ℚ) :
    (showError B m w).dom.errorHidden = false ∧
    (showError B m w).dom.errorText = textContentOf B m ∧
    (showError B m w).timers = w.timers ++ [{ due := w.now + 5000, action := .hideError }] ∧
    (w.now + 5000 ≤ t → (advanceTo B t (showError B m w)).dom.errorHidden = true) ∧
    (t < w.now + 5000 → (∀ x ∈ w.timers, x.action.isHideError = true → t < x.due) →
      (advanceTo B t (showError B m w)).dom.errorHidden = false ∧
      (advanceTo B t (showError B m w)).dom.errorText = textContentOf B m) ∧
    (∀ w2 : World, (onCloseErrorClick w2).dom.errorHidden = true) ∧
    (∀ w2 : World, w2.dom.keywordInputFocused = true →
      (onKeydown "Escape" false false w2).dom.errorHidden = true) ∧
    (∀ w2 : World, jsTrim w2.dom.keywordInputValue ≠ "" →
      (handleAnalyzeStart B w2).world.dom.errorHidden = true) ∧
    (∀ m2 : JsVal, (showError B m2 (advanceTo B t (showError B m w))).dom.errorHidden = false ∧
      (showError B m2 (advanceTo B t (showError B m w))).dom.errorText =
        textContentOf B m2) := by
  refine ⟨rfl, rfl, rfl, ?_, ?_, fun _ => rfl, ?_, ?_, fun _ => ⟨rfl, rfl⟩⟩
  · intro h
    rw [advanceTo_errorHidden]
    have : (showError B m w).timers =
        w.timers ++ [{ due := w.now + 5000, action := .hideError }] := rfl
    rw [this]
    simp [TimerAction.isHideError, h]
  · intro h hno
    refine ⟨?_, advanceTo_errorText B t _⟩
    rw [advanceTo_errorHidden]
    have : (showError B m w).timers =
        w.timers ++ [{ due := w.now + 5000, action := .hideError }] := rfl
    rw [this]
    have h1 : (showError B m w).dom.errorHidden = false := rfl
    rw [h1]
    simp only [Bool.false_or, List.any_append, List.any_cons, List.any_nil, Bool.or_false,
      Bool.or_eq_false_iff, TimerAction.isHideError, Bool.true_and, decide_eq_false_iff_not,
      not_le]
    refine ⟨?_, h⟩
    rw [← Bool.not_eq_true, List.any_eq_true]
    rintro ⟨x, hx, hh⟩
    simp only [Bool.and_eq_true, decide_eq_true_eq] at hh
    exact absurd hh.2 (not_le.mpr (hno x hx hh.1))
  · intro w2 hf
    unfold onKeydown
    simp [hf, hideError, World.log]
  · intro w2 hne
    rw [handleAnalyzeStart_valid B w2 hne]
    rfl

/-! ## Frames of the counter animation -/

theorem callbacksOf_append (el : Counter) (l1 l2 : List Call) :
    callbacksOf el (l1 ++ l2) = callbacksOf el l1 + callbacksOf el l2 := by
  induction l1 with
  | nil => simp [callbacksOf]
  | cons c cs ih => cases c <;> simp [callbacksOf, ih, Nat.add_assoc]

theorem counterText_set_same (d : Dom) (c : Counter) (s : String) :
    (d.setCounterText c s).counterText c = s := by
  cases c <;> rfl

theorem counterText_set_other (d : Dom) (c el : Counter) (s : String) (h : c ≠ el) :
    (d.setCounterText c s).counterText el = d.counterText el := by
  cases c <;> cases el <;> first | rfl | exact absurd rfl h

/-- A completion callback run for an animation that leaves `el` alone changes
neither the text of `el` nor the count of callbacks for `el`. -/
theorem runCallback_other (B : Builtins) (b : Anim) (el : Counter) (w : World)
    (h : b.leaves el) :
    (runCallback B b.element b.callback w).dom.counterText el = w.dom.counterText el ∧
    callbacksOf el (runCallback B b.element b.callback w).trace = callbacksOf el w.trace ∧
    (runCallback B b.element b.callback w).frames = w.frames := by
  unfold runCallback
  rcases hcb : b.callback with _ | ⟨v⟩
  · exact ⟨rfl, rfl, rfl⟩
  · have hel : el ≠ .difficulty := by
      intro he
      rw [h.2 he] at hcb
      cases hcb
    refine ⟨?_, ?_, rfl⟩
    · cases el <;> first | rfl | exact absurd rfl hel
    · simp [World.log, callbacksOf_append, callbacksOf, h.1]

theorem showCurrent_other (B : Builtins) (b : Anim) (t : ℚ) (el : Counter) (w : World)
    (h : b.leaves el) :
    (showCurrent B b t w).dom.counterText el = w.dom.counterText el ∧
    (showCurrent B b t w).trace = w.trace ∧ (showCurrent B b t w).frames = w.frames :=
  ⟨counterText_set_other _ _ _ _ h.1, rfl, rfl⟩

theorem showFinal_other (B : Builtins) (b : Anim) (el : Counter) (w : World)
    (h : b.leaves el) :
    (showFinal B b w).dom.counterText el = w.dom.counterText el ∧
    callbacksOf el (showFinal B b w).trace = callbacksOf el w.trace ∧
    (showFinal B b w).frames = w.frames := by
  unfold showFinal
  split
  · obtain ⟨h1, h2, h3⟩ := runCallback_other B b el
      (w.setCounterText b.element (numToLocaleString B (mathRound (toNumber B b.endValue)))) h
    exact ⟨h1.trans (counterText_set_other _ _ _ _ h.1), h2, h3⟩
  · split
    · rename_i q hq
      obtain ⟨h1, h2, h3⟩ := runCallback_other B b el
        (w.setCounterText b.element (B.toFixed2 q)) h
      exact ⟨h1.trans (counterText_set_other _ _ _ _ h.1), h2, h3⟩
    · refine ⟨rfl, ?_, rfl⟩
      simp [World.log, callbacksOf_append, callbacksOf]

/-- A frame callback of an animation that leaves `el` alone. -/
theorem updateNumber_other (B : Builtins) (b : Anim) (t : ℚ) (el : Counter) (w : World)
    (h : b.leaves el) :
    (updateNumber B b t w).dom.counterText el = w.dom.counterText el ∧
    callbacksOf el (updateNumber B b t w).trace = callbacksOf el w.trace ∧
    ((updateNumber B b t w).frames = w.frames ++ [b] ∨
      (updateNumber B b t w).frames = w.frames) := by
  obtain ⟨c1, c2, c3⟩ := showCurrent_other B b t el w h
  obtain ⟨f1, f2, f3⟩ := showFinal_other B b el (showCurrent B b t w) h
  unfold updateNumber
  simp only []
  split
  · exact ⟨c1, by rw [← c2], Or.inl (by rw [← c3])⟩
  · exact ⟨f1.trans c1, by rw [f2, c2], Or.inr (by rw [f3, c3])⟩

/-- Frame callbacks of animations that leave `el` alone, run one after the
other. -/
theorem foldl_updateNumber_other (B : Builtins) (t : ℚ) (el : Counter) (bs : List Anim)
    (w : World) (h : ∀ b ∈ bs, b.leaves el) :
    (bs.foldl (fun acc a => updateNumber B a t acc) w).dom.counterText el =
      w.dom.counterText el ∧
    callbacksOf el (bs.foldl (fun acc a => updateNumber B a t acc) w).trace =
      callbacksOf el w.trace ∧
    ∃ cs, (bs.foldl (fun acc a => updateNumber B a t acc) w).frames = w.frames ++ cs ∧
      ∀ b ∈ cs, b.leaves el := by
  induction bs generalizing w with
  | nil => exact ⟨rfl, rfl, [], by simp, by simp⟩
  | cons b rest ih =>
    simp only [List.foldl_cons]
    obtain ⟨g1, g2, g3⟩ := updateNumber_other B b t el w (h b (List.mem_cons_self _ _))
    obtain ⟨h1, h2, cs, h3, h4⟩ := ih (updateNumber B b t w)
      (fun x hx => h x (List.mem_cons_of_mem _ hx))
    refine ⟨h1.trans g1, h2.trans g2, ?_⟩
    rcases g3 with g3 | g3
    · refine ⟨b :: cs, ?_, ?_⟩
      · rw [h3, g3]; simp
      · intro x hx
        rcases List.mem_cons.mp hx with hx | hx
        · rw [hx]; exact h b (List.mem_cons_self _ _)
        · exact h4 x hx
    · exact ⟨cs, by rw [h3, g3], h4⟩

theorem runCallback_own (B : Builtins) (el : Counter) (cb : Option Callback) (w : World) :
    (runCallback B el cb w).frames = w.frames ∧
    callbacksOf el (runCallback B el cb w).trace =
      callbacksOf el w.trace + (if cb.isSome then 1 else 0) ∧
    ((cb = none ∨ el ≠ .difficulty) →
      (runCallback B el cb w).dom.counterText el = w.dom.counterText el) ∧
    (∀ v, cb = some (.difficultyOutOf100 v) →
      (runCallback B el cb w).dom.difficulty = jsToString B v ++ "/100") := by
  unfold runCallback
  rcases cb with _ | ⟨v⟩
  · refine ⟨rfl, rfl, fun _ => rfl, ?_⟩
    intro v hv
    cases hv
  · refine ⟨rfl, ?_, ?_, ?_⟩
    · simp [World.log, callbacksOf_append, callbacksOf]
    · intro h
      rcases h with h | h
      · cases h
      · cases el <;> first | rfl | exact absurd rfl h
    · intro v2 hv
      cases hv
      rfl

/-- The frame callback of an animation towards the number `q`, while its
progress is below 1: the current value is shown and the next frame requested. -/
theorem updateNumber_running (B : Builtins) (a : Anim) (t : ℚ) (w : World)
    (hp : a.progress t < 1) :
    (updateNumber B a t w).frames = w.frames ++ [a] ∧
    (updateNumber B a t w).trace = w.trace := by
  unfold updateNumber
  simp only [hp, if_true]
  exact ⟨rfl, rfl⟩

/-- The frame callback of an animation towards the number `q`, once its
progress is not below 1: the final text is shown, the callback runs, and no
frame is requested. -/
theorem updateNumber_final (B : Builtins) (a : Anim) (t : ℚ) (w : World) (q : ℚ)
    (hq : a.endValue = some (.num q)) (hp : ¬ a.progress t < 1) :
    (updateNumber B a t w).frames = w.frames ∧
    callbacksOf a.element (updateNumber B a t w).trace =
      callbacksOf a.element w.trace + (if a.callback.isSome then 1 else 0) ∧
    ((a.callback = none ∨ a.element ≠ .difficulty) →
      (updateNumber B a t w).dom.counterText a.element = finalText B a.addCommas q) ∧
    (∀ v, a.callback = some (.difficultyOutOf100 v) →
      (updateNumber B a t w).dom.difficulty = jsToString B v ++ "/100") := by
  unfold updateNumber
  simp only [hp, if_false]
  unfold showFinal
  by_cases hc : a.addCommas = true
  · simp only [hc, if_true]
    obtain ⟨h1, h2, h3, h4⟩ := runCallback_own B a.element a.callback
      ((showCurrent B a t w).setCounterText a.element
        (numToLocaleString B (mathRound (toNumber B a.endValue))))
    refine ⟨h1, h2, ?_, h4⟩
    intro h
    rw [h3 h]
    simp [World.setCounterText, counterText_set_same, hq, toNumber, mathRound,
      numToLocaleString, finalText]
  · have hc2 : a.addCommas = false := by simpa using hc
    simp only [hc2, hq, Bool.false_eq_true, if_false]
    obtain ⟨h1, h2, h3, h4⟩ := runCallback_own B a.element a.callback
      ((showCurrent B a t w).setCounterText a.element (B.toFixed2 q))
    refine ⟨h1, h2, ?_, h4⟩
    intro h
    rw [h3 h]
    simp [World.setCounterText, counterText_set_same, finalText]

theorem animationFrame_split (B : Builtins) (t : ℚ) (w : World) (others : List Anim)
    (a : Anim) (h : w.frames = others ++ [a]) :
    animationFrame B t w =
      updateNumber B a t
        (others.foldl (fun acc b => updateNumber B b t acc) { w with frames := [] }) := by
  unfold animationFrame
  rw [h, List.foldl_append]
  rfl

/-- A frame in which the animation `a` is still below progress 1. -/
theorem animationFrame_running (B : Builtins) (t : ℚ) (el : Counter) (a : Anim) (w : World)
    (h : PendingLast el a w) (hp : a.progress t < 1) :
    PendingLast el a (animationFrame B t w) ∧
    callbacksOf el (animationFrame B t w).trace = callbacksOf el w.trace := by
  obtain ⟨others, hf, ho⟩ := h
  rw [animationFrame_split B t w others a hf]
  obtain ⟨_, g2, cs, g3, g4⟩ :=
    foldl_updateNumber_other B t el others { w with frames := [] } ho
  obtain ⟨u1, u2⟩ := updateNumber_running B a t
    (others.foldl (fun acc b => updateNumber B b t acc) { w with frames := [] }) hp
  refine ⟨⟨cs, ?_, g4⟩, ?_⟩
  · rw [u1, g3]; simp
  · rw [u2, g2]

/-- The frame in which the animation `a` towards the number `q` reaches
progress 1. -/
theorem animationFrame_final (B : Builtins) (t : ℚ) (a : Anim) (w : World) (q : ℚ)
    (hq : a.endValue = some (.num q)) (h : PendingLast a.element a w)
    (hp : ¬ a.progress t < 1) :
    NonePending a.element (animationFrame B t w) ∧
    callbacksOf a.element (animationFrame B t w).trace =
      callbacksOf a.element w.trace + (if a.callback.isSome then 1 else 0) ∧
    ((a.callback = none ∨ a.element ≠ .difficulty) →
      (animationFrame B t w).dom.counterText a.element = finalText B a.addCommas q) ∧
    (∀ v, a.callback = some (.difficultyOutOf100 v) →
      (animationFrame B t w).dom.difficulty = jsToString B v ++ "/100") := by
  obtain ⟨others, hf, ho⟩ := h
  rw [animationFrame_split B t w others a hf]
  obtain ⟨_, g2, cs, g3, g4⟩ :=
    foldl_updateNumber_other B t a.element others { w with frames := [] } ho
  obtain ⟨u1, u2, u3, u4⟩ := updateNumber_final B a t
    (others.foldl (fun acc b => updateNumber B b t acc) { w with frames := [] }) q hq hp
  refine ⟨?_, ?_, u3, u4⟩
  · unfold NonePending
    rw [u1, g3]
    simpa using g4
  · rw [u2, g2]

/-- Frames after the animation on `el` has ended change nothing about `el`. -/
theorem animationFrames_done (B : Builtins) (el : Counter) (ts : List ℚ) (w : World)
    (h : NonePending el w) :
    NonePending el (animationFrames B ts w) ∧
    callbacksOf el (animationFrames B ts w).trace = callbacksOf el w.trace ∧
    (animationFrames B ts w).dom.counterText el = w.dom.counterText el := by
  induction ts generalizing w with
  | nil => exact ⟨h, rfl, rfl⟩
  | cons t rest ih =>
    obtain ⟨g1, g2, cs, g3, g4⟩ :=
      foldl_updateNumber_other B t el w.frames { w with frames := [] } h
    have hn : NonePending el (animationFrame B t w) := by
      unfold NonePending animationFrame
      rw [g3]
      simpa using g4
    obtain ⟨i1, i2, i3⟩ := ih (animationFrame B t w) hn
    exact ⟨i1, i2.trans g2, i3.trans g1⟩

theorem animationFrames_running (B : Builtins) (el : Counter) (a : Anim) (ts : List ℚ)
    (w : World) (h : PendingLast el a w) (hp : ∀ x ∈ ts, a.progress x < 1) :
    PendingLast el a (animationFrames B ts w) ∧
    callbacksOf el (animationFrames B ts w).trace = callbacksOf el w.trace := by
  induction ts generalizing w with
  | nil => exact ⟨h, rfl⟩
  | cons t rest ih =>
    obtain ⟨g1, g2⟩ := animationFrame_running B t el a w h (hp t (List.mem_cons_self _ _))
    obtain ⟨i1, i2⟩ := ih (animationFrame B t w) g1
      (fun x hx => hp x (List.mem_cons_of_mem _ hx))
    exact ⟨i1, i2.trans g2⟩

theorem animationFrames_append (B : Builtins) (ts us : List ℚ) (w : World) :
    animationFrames B (ts ++ us) w = animationFrames B us (animationFrames B ts w) := by
  unfold animationFrames
  rw [List.foldl_append]

/-- An animation towards the number `q` that is pending last, run through
frames below progress 1, then one frame at progress 1, then further frames. -/
theorem animation_run (B : Builtins) (a : Anim) (q : ℚ) (w : World) (ts : List ℚ) (t : ℚ)
    (rest : List ℚ) (hq : a.endValue = some (.num q)) (h : PendingLast a.element a w)
    (hts : ∀ x ∈ ts, a.progress x < 1) (ht : ¬ a.progress t < 1) :
    PendingLast a.element a (animationFrames B ts w) ∧
    callbacksOf a.element (animationFrames B ts w).trace = callbacksOf a.element w.trace ∧
    NonePending a.element (animationFrames B (ts ++ [t]) w) ∧
    callbacksOf a.element (animationFrames B (ts ++ [t]) w).trace =
      callbacksOf a.element w.trace + (if a.callback.isSome then 1 else 0) ∧
    ((a.callback = none ∨ a.element ≠ .difficulty) →
      (animationFrames B (ts ++ [t]) w).dom.counterText a.element =
        finalText B a.addCommas q) ∧
    (∀ v, a.callback = some (.difficultyOutOf100 v) →
      (animationFrames B (ts ++ [t]) w).dom.difficulty = jsToString B v ++ "/100") ∧
    NonePending a.element (animationFrames B (ts ++ [t] ++ rest) w) ∧
    callbacksOf a.element (animationFrames B (ts ++ [t] ++ rest) w).trace =
      callbacksOf a.element w.trace + (if a.callback.isSome then 1 else 0) ∧
    (animationFrames B (ts ++ [t] ++ rest) w).dom.counterText a.element =
      (animationFrames B (ts ++ [t]) w).dom.counterText a.element := by
  obtain ⟨r1, r2⟩ := animationFrames_running B a.element a ts w h hts
  have hstep : animationFrames B (ts ++ [t]) w = animationFrame B t (animationFrames B ts w) := by
    rw [animationFrames_append]
    rfl
  obtain ⟨f1, f2, f3, f4⟩ := animationFrame_final B t a (animationFrames B ts w) q hq r1 ht
  rw [← hstep] at f1 f2 f3 f4
  obtain ⟨d1, d2, d3⟩ := animationFrames_done B a.element rest
    (animationFrames B (ts ++ [t]) w) f1
  rw [← animationFrames_append] at d1 d2 d3
  exact ⟨r1, r2, f1, by rw [f2, r2], f3, f4, d1, by rw [d2, f2, r2], d3⟩

theorem jsToString_num (B : Builtins) (q : ℚ) :
    jsToString B (some (.num q)) = B.numberToString q := by
  simp [jsToString, Json.toStr]

/-- C8: `animateNumber` is called for the counter `el` with a number as end
value and a positive duration, while no pending animation writes `el`.  Then
for every run of frames: while the progress is below 1 the frame callback stays
requested and the callback has not run; at the first frame whose progress is
not below 1 no frame is requested any more, the callback, when given, has run
exactly once, and the element shows the formatted end value (unless the
callback has just overwritten that same element); further frames change none of
this.  For the difficulty counter, set up by `displayDifficulty`, the text at
the end, and from then on, is the value followed by `/100`. -/
theorem C8_animation_completes (B : Builtins) (el : Counter) (start q duration : ℚ)
    (addCommas : Bool) (callback : Option Callback) (w : World) (ts : List ℚ) (t : ℚ)
    (rest : List ℚ) (hw : NonePending el w) (_hD : 0 < duration)
    (hts : ∀ x ∈ ts,
      (animOf el start (some (.num q)) duration addCommas callback w).progress x < 1)
    (ht : ¬ (animOf el start (some (.num q)) duration addCommas callback w).progress t < 1) :
    PendingLast el (animOf el start (some (.num q)) duration addCommas callback w)
      (animationFrames B ts
        (animateNumber el start (some (.num q)) duration addCommas callback w)) ∧
    callbacksOf el (animationFrames B ts
      (animateNumber el start (some (.num q)) duration addCommas callback w)).trace =
        callbacksOf el w.trace ∧
    NonePending el (animationFrames B (ts ++ [t])
      (animateNumber el start (some (.num q)) duration addCommas callback w)) ∧
    callbacksOf el (animationFrames B (ts ++ [t])
      (animateNumber el start (some (.num q)) duration addCommas callback w)).trace =
        callbacksOf el w.trace + (if callback.isSome then 1 else 0) ∧
    ((callback = none ∨ el ≠ .difficulty) →
      (animationFrames B (ts ++ [t])
        (animateNumber el start (some (.num q)) duration addCommas callback w)).dom.counterText
          el = finalText B addCommas q) ∧
    NonePending el (animationFrames B (ts ++ [t] ++ rest)
      (animateNumber el start (some (.num q)) duration addCommas callback w)) ∧
    callbacksOf el (animationFrames B (ts ++ [t] ++ rest)
      (animateNumber el start (some (.num q)) duration addCommas callback w)).trace =
        callbacksOf el w.trace + (if callback.isSome then 1 else 0) ∧
    (animationFrames B (ts ++ [t] ++ rest)
      (animateNumber el start (some (.num q)) duration addCommas callback w)).dom.counterText
        el =
      (animationFrames B (ts ++ [t])
        (animateNumber el start (some (.num q)) duration addCommas callback
          w)).dom.counterText el ∧
    (el = .difficulty → duration = 1500 →
      (animationFrames B (ts ++ [t])
        (displayDifficulty B (some (.num q)) w)).dom.difficulty =
          B.numberToString q ++ "/100" ∧
      (animationFrames B (ts ++ [t] ++ rest)
        (displayDifficulty B (some (.num q)) w)).dom.difficulty =
          B.numberToString q ++ "/100" ∧
      callbacksOf .difficulty (animationFrames B (ts ++ [t] ++ rest)
        (displayDifficulty B (some (.num q)) w)).trace =
          callbacksOf .difficulty w.trace + 1) := by
  have hp : PendingLast el (animOf el start (some (.num q)) duration addCommas callback w)
      (animateNumber el start (some (.num q)) duration addCommas callback w) :=
    ⟨w.frames, rfl, hw⟩
  have htr : callbacksOf el
      (animateNumber el start (some (.num q)) duration addCommas callback w).trace =
      callbacksOf el w.trace := by
    simp [animateNumber, World.log, callbacksOf_append, callbacksOf]
  obtain ⟨a1, a2, a3, a4, a5, _, a7, a8, a9⟩ := animation_run B
    (animOf el start (some (.num q)) duration addCommas callback w) q
    (animateNumber el start (some (.num q)) duration addCommas callback w) ts t rest rfl hp
    hts ht
  refine ⟨a1, a2.trans htr, a3, by rw [← htr]; exact a4, a5, a7, by rw [← htr]; exact a8, a9,
    ?_⟩
  intro hel hdur
  subst hel hdur
  have hp2 : PendingLast .difficulty
      (animOf .difficulty 0 (some (.num q)) 1500 false
        (some (.difficultyOutOf100 (some (.num q)))) (w.log .displayDifficulty))
      (displayDifficulty B (some (.num q)) w) := ⟨w.frames, rfl, hw⟩
  have htr2 : callbacksOf .difficulty (displayDifficulty B (some (.num q)) w).trace =
      callbacksOf .difficulty w.trace := by
    simp [displayDifficulty, animateNumber, World.log, World.setTimeout, callbacksOf_append,
      callbacksOf]
  obtain ⟨_, _, _, _, _, b6, _, b8, b9⟩ := animation_run B
    (animOf .difficulty 0 (some (.num q)) 1500 false
      (some (.difficultyOutOf100 (some (.num q)))) (w.log .displayDifficulty)) q
    (displayDifficulty B (some (.num q)) w) ts t rest rfl hp2 hts ht
  have hfin := b6 _ rfl
  rw [jsToString_num] at hfin
  refine ⟨hfin, ?_, ?_⟩
  · exact b9.trans hfin
  · rw [← htr2]
    exact b8

/-- Witness of C8: the earnings counter animated from 0 to 12.5 on the freshly
loaded page, with frames at 16 ms and 700 ms, the final frame at 1600 ms and a
later frame at 1700 ms. -/
theorem C8_animation_completes_witness :
    (animationFrames sampleBuiltins ([16, 700] ++ [1600])
      (animateNumber .earnings 0 (some (.num (25 / 2))) 1500 false none
        World.initial)).dom.counterText .earnings =
      finalText sampleBuiltins false (25 / 2) :=
  (C8_animation_completes sampleBuiltins .earnings 0 (25 / 2) 1500 false none World.initial
    [16, 700] 1600 [1700]
    (by intro b hb; cases hb)
    (by norm_num)
    (by
      intro x hx
      simp only [List.mem_cons, List.mem_singleton, List.not_mem_nil, or_false] at hx
      rcases hx with hx | hx <;> subst hx <;>
        norm_num [Anim.progress, Anim.elapsed, animOf, World.initial])
    (by norm_num [Anim.progress, Anim.elapsed, animOf, World.initial])).2.2.2.2.1
    (Or.inl rfl)

/-! ## Examples for related keywords and the banner -/

/-- Witness of the amended C6: the keywords `handmade gift` and `custom mug`
rendered on the freshly loaded page give two tags, and a click on the second
one issues the request for `custom mug`. -/
theorem C6_related_keywords_amended_witness :
    ∃ w1, displayRelatedKeywords sampleBuiltins
        (some (.arr [.str "handmade gift", .str "custom mug"])) World.initial = .ok w1 ∧
      w1.dom.relatedKeywords.length = 2 ∧
      ∀ tag, w1.dom.relatedKeywords[1]? = some tag →
        requestsOf (onTagClick sampleBuiltins tag World.initial).world.trace =
          [analyzeRequest "custom mug"] :=
  let ⟨w1, h1, _, h3, _, _, h6⟩ := C6_related_keywords_amended sampleBuiltins
    [.str "handmade gift", .str "custom mug"] World.initial
  ⟨w1, h1, h3, fun tag ht =>
    (h6 1 tag "custom mug" World.initial ht rfl).2.2.2.2.2 (by decide) (by decide)
      (by decide)⟩

/-- Witness of the amended C10: an error shown on the freshly loaded page at
time 0 is still visible at 4999 ms and hidden at 5000 ms. -/
theorem C10_banner_amended_witness :
    (advanceTo sampleBuiltins 4999
      (showError sampleBuiltins (some (.str "oops")) World.initial)).dom.errorHidden = false ∧
    (advanceTo sampleBuiltins 5000
      (showError sampleBuiltins (some (.str "oops")) World.initial)).dom.errorHidden = true :=
  ⟨((C10_banner_amended sampleBuiltins (some (.str "oops")) World.initial 4999).2.2.2.2.1
      (by norm_num [World.initial]) (by intro x hx; cases hx)).1,
   (C10_banner_amended sampleBuiltins (some (.str "oops")) World.initial 5000).2.2.2.1
      (by norm_num [World.initial])⟩

end KeywordTool
